import Mathlib

/-!
# Verification of the self-healing replay engine (PersonalAgentQuests)

Shallow embedding, in Lean 4, of the components of the quest runner that the
specification's testable properties talk about:

* `ContextService.applySubstitutions` / `reverseSubstitutions`
  (src/lib/services/context.ts),
* `HybridQuestRunner.trimMessageHistory` (src/lib/quests/HybridQuestRunner.ts),
* `ScriptManager.getScript` / `saveScript` (expiry-aware version),
* `BrowserService.verifyElementAtCoordinates` (src/lib/services/cursor.ts),
* the orchestrating `run` / `runAI` state machine of `HybridQuestRunner`.

Strings are modelled as `List Char`.  JavaScript's
`String.prototype.replace(pattern, repl)` with a *string* pattern replaces only
the first occurrence of `pattern`; that behaviour is embedded faithfully
(`replFirst`).  Replacement strings are assumed free of the JS `$`-escape
sequences, which the repository's context values (generated e-mail addresses)
always are.
-/

/-- Character lists standing in for JavaScript strings. -/
abbrev Str := List Char

namespace StrOps

/-- `hasSub pat s` embeds JavaScript `s.includes(pat)`:
`true` iff `pat` occurs (contiguously) somewhere in `s`. -/
def hasSub (pat : Str) : Str → Bool
  | [] => pat.isEmpty
  | c :: t => pat.isPrefixOf (c :: t) || hasSub pat t

/-- Index of the first occurrence of `pat` in `s`, if any. -/
def firstIdx (pat : Str) : Str → Option Nat
  | [] => if pat.isEmpty then some 0 else none
  | c :: t =>
    if pat.isPrefixOf (c :: t) then some 0
    else (firstIdx pat t).map (· + 1)

/-- Embedding of JavaScript `s.replace(pat, repl)` for a *string* pattern:
replaces only the first occurrence of `pat`, and returns `s` unchanged when
`pat` does not occur. -/
def replFirst (pat repl : Str) : Str → Str
  | [] => if pat.isEmpty then repl else []
  | c :: t =>
    if pat.isPrefixOf (c :: t) then repl ++ (c :: t).drop pat.length
    else c :: replFirst pat repl t

theorem isPrefixOf_iff (p s : Str) : p.isPrefixOf s = true ↔ p <+: s := by
  constructor
  · exact fun h => List.isPrefixOf_iff_prefix.mp h
  · exact fun h => List.isPrefixOf_iff_prefix.mpr h

theorem drop_shift (c : Char) (t : Str) (j n : Nat) :
    (c :: t).drop (j + 1 + n) = t.drop (j + n) := by
  rw [show j + 1 + n = (j + n) + 1 by omega]
  rfl

theorem firstIdx_none_replFirst (pat repl : Str) (s : Str)
    (h : firstIdx pat s = none) : replFirst pat repl s = s := by
  induction s with
  | nil =>
    by_cases he : pat.isEmpty <;> simp [firstIdx, he] at h ⊢
    simp [replFirst, he]
  | cons c t ih =>
    simp only [firstIdx] at h
    by_cases hp : pat.isPrefixOf (c :: t) = true
    · simp [hp] at h
    · simp only [hp, Bool.false_eq_true, if_false, Option.map_eq_none'] at h
      simp only [replFirst, hp, Bool.false_eq_true, if_false]
      rw [ih h]

theorem firstIdx_some_le (pat s : Str) (i : Nat)
    (h : firstIdx pat s = some i) : i + pat.length ≤ s.length := by
  induction s generalizing i with
  | nil =>
    by_cases he : pat.isEmpty <;> simp [firstIdx, he] at h
    simp [List.isEmpty_iff] at he
    simp [← h, he]
  | cons c t ih =>
    simp only [firstIdx] at h
    by_cases hp : pat.isPrefixOf (c :: t) = true
    · rw [if_pos hp] at h
      injection h with h
      have hpre := (isPrefixOf_iff pat (c :: t)).mp hp
      have hlen := hpre.length_le
      simp only [List.length_cons] at hlen ⊢
      omega
    · simp only [hp, Bool.false_eq_true, if_false, Option.map_eq_some'] at h
      rcases h with ⟨j, hj, hji⟩
      have := ih j hj
      simp [← hji, List.length_cons]
      omega

theorem firstIdx_some_replFirst (pat repl : Str) (s : Str) (i : Nat)
    (h : firstIdx pat s = some i) :
    replFirst pat repl s = s.take i ++ repl ++ s.drop (i + pat.length) := by
  induction s generalizing i with
  | nil =>
    by_cases he : pat.isEmpty <;> simp [firstIdx, he] at h
    simp [replFirst, he, ← h]
  | cons c t ih =>
    simp only [firstIdx] at h
    by_cases hp : pat.isPrefixOf (c :: t) = true
    · simp only [hp, if_pos, Option.some.injEq] at h
      simp [replFirst, hp, ← h]
    · simp only [hp, Bool.false_eq_true, if_false, Option.map_eq_some'] at h
      rcases h with ⟨j, hj, hji⟩
      simp only [replFirst, hp, Bool.false_eq_true, if_false]
      rw [ih j hj, ← hji]
      rw [List.take_succ_cons, drop_shift]
      simp

/-- The first occurrence of `pat` in `s` really is an occurrence:
`s` decomposes around it. -/
theorem firstIdx_some_decomp (pat s : Str) (i : Nat)
    (h : firstIdx pat s = some i) :
    s = s.take i ++ pat ++ s.drop (i + pat.length) := by
  induction s generalizing i with
  | nil =>
    by_cases he : pat.isEmpty <;> simp [firstIdx, he] at h
    simp [List.isEmpty_iff] at he
    simp [he, ← h]
  | cons c t ih =>
    simp only [firstIdx] at h
    by_cases hp : pat.isPrefixOf (c :: t) = true
    · simp only [hp, if_pos, Option.some.injEq] at h
      have hpre := (isPrefixOf_iff pat (c :: t)).mp hp
      rcases hpre with ⟨u, hu⟩
      subst h
      simp only [List.take_zero, List.nil_append, Nat.zero_add]
      rw [← hu]
      simp
    · simp only [hp, Bool.false_eq_true, if_false, Option.map_eq_some'] at h
      rcases h with ⟨j, hj, hji⟩
      subst hji
      have := ih j hj
      rw [List.take_succ_cons, drop_shift]
      calc c :: t = c :: (t.take j ++ pat ++ t.drop (j + pat.length)) := by
            rw [← this]
        _ = c :: t.take j ++ pat ++ t.drop (j + pat.length) := by simp

theorem hasSub_eq_isSome_firstIdx (pat s : Str) :
    hasSub pat s = (firstIdx pat s).isSome := by
  induction s with
  | nil => by_cases h : pat.isEmpty <;> simp [hasSub, firstIdx, h]
  | cons c t ih =>
    by_cases hp : pat.isPrefixOf (c :: t) = true <;>
      simp [hasSub, firstIdx, hp, ih]

end StrOps

/-! ## Context Substitution Service (src/lib/services/context.ts) -/

open StrOps

/-- A parameter value: tool parameters are JS objects whose fields are either
strings (subject to substitution) or non-string values (numbers, booleans,
nested objects), which both substitution methods leave untouched. -/
inductive PVal
  | str (s : Str)
  | raw (n : Nat)
deriving DecidableEq, Repr

/-- A parameter object: fields in property-enumeration order. -/
abbrev Params := List (String × PVal)

/-- A run context: `Object.entries(this.context)` in enumeration order. -/
abbrev RunCtx := List (Str × Str)

namespace ContextService

/-- The template placeholder `{{key}}`. -/
def placeholder (k : Str) : Str := '{' :: '{' :: (k ++ ['}', '}'])

/-- One inner-loop body of `applySubstitutions`/`reverseSubstitutions`:
`if (typeof v === 'string' && v.includes(pat)) v = v.replace(pat, repl)`. -/
def substField (pat repl s : Str) : Str :=
  if hasSub pat s then replFirst pat repl s else s

/-- The inner `for (const paramKey in newParams)` loop applied to every field
of the parameter object for one context entry. -/
def substParams (pat repl : Str) (ps : Params) : Params :=
  ps.map fun fv =>
    match fv.2 with
    | .str s => (fv.1, .str (substField pat repl s))
    | v => (fv.1, v)

/-- `ContextService.applySubstitutions(params)`: for each context entry
`(key, value)` (in order), replace the placeholder `{{key}}` in each
string-valued field by `value`. -/
def applySubstitutions (ctx : RunCtx) (ps : Params) : Params :=
  ctx.foldl (fun acc kv => substParams (placeholder kv.1) kv.2 acc) ps

/-- `ContextService.reverseSubstitutions(params)`: for each context entry
`(key, value)` (in order), replace `value` in each string-valued field by the
placeholder `{{key}}`. -/
def reverseSubstitutions (ctx : RunCtx) (ps : Params) : Params :=
  ctx.foldl (fun acc kv => substParams kv.2 (placeholder kv.1) acc) ps

/-- The claim's well-formedness hypothesis on one field: the context value `v`
does not occur as a substring of the field's string value. -/
def valOk (v : Str) : PVal → Prop
  | .str s => ¬ v <:+: s
  | .raw _ => True

instance (v : Str) (p : PVal) : Decidable (valOk v p) := by
  cases p <;> simp only [valOk] <;> infer_instance

/-- Formalisation of the C1 hypothesis, "p's string fields contain no value
that coincidentally equals another context value's substring": no context
value occurs inside any string field of `p`, and no context value occurs
inside a different entry's value. -/
def NoValueCollisions (ctx : RunCtx) (ps : Params) : Prop :=
  (∀ kv ∈ ctx, ∀ fv ∈ ps, valOk kv.2 fv.2) ∧
  (∀ kv ∈ ctx, ∀ kv' ∈ ctx, kv.1 ≠ kv'.1 → ¬ kv.2 <:+: kv'.2)

instance (ctx : RunCtx) (ps : Params) : Decidable (NoValueCollisions ctx ps) := by
  unfold NoValueCollisions; infer_instance

/-- No-accidental-collision condition under which the substitution round trip
is provably the identity on a string field: the first occurrence of the
substituted value in the substituted field is exactly the spot the
substitution wrote (and the value does not occur at all when the placeholder
was absent). -/
def fieldRoundTripSafe (k v : Str) : PVal → Prop
  | .str s =>
      firstIdx v (substField (placeholder k) v s) = firstIdx (placeholder k) s
  | .raw _ => True

instance (k v : Str) (p : PVal) : Decidable (fieldRoundTripSafe k v p) := by
  cases p <;> simp only [fieldRoundTripSafe] <;> infer_instance

theorem substField_roundtrip (pat v s : Str)
    (hs : firstIdx v (substField pat v s) = firstIdx pat s) :
    substField v pat (substField pat v s) = s := by
  rcases hidx : firstIdx pat s with _ | i
  · have hnone : substField pat v s = s := by
      unfold substField
      rw [hasSub_eq_isSome_firstIdx, hidx]
      rfl
    rw [hnone] at hs ⊢
    unfold substField
    rw [hasSub_eq_isSome_firstIdx, hs, hidx]
    rfl
  · have happ : substField pat v s
        = s.take i ++ v ++ s.drop (i + pat.length) := by
      unfold substField
      rw [hasSub_eq_isSome_firstIdx, hidx]
      exact firstIdx_some_replFirst pat v s i hidx
    rw [hidx] at hs
    have hile : i + pat.length ≤ s.length := firstIdx_some_le pat s i hidx
    have htklen : (s.take i).length = i := by
      simp [List.length_take]
      omega
    rw [happ] at hs ⊢
    unfold substField
    rw [hasSub_eq_isSome_firstIdx, hs]
    simp only [Option.isSome_some, if_pos]
    rw [firstIdx_some_replFirst v pat _ i hs]
    have htk : (s.take i ++ v ++ s.drop (i + pat.length)).take i = s.take i := by
      rw [List.append_assoc]
      exact List.take_left' htklen
    have hdr : (s.take i ++ v ++ s.drop (i + pat.length)).drop (i + v.length)
        = s.drop (i + pat.length) := by
      exact List.drop_left' (by simp [htklen])
    rw [htk, hdr]
    exact (firstIdx_some_decomp pat s i hidx).symm

end ContextService

namespace ContextService

theorem substParams_roundtrip (k v : Str) (ps : Params)
    (h : ∀ fv ∈ ps, fieldRoundTripSafe k v fv.2) :
    substParams v (placeholder k) (substParams (placeholder k) v ps) = ps := by
  induction ps with
  | nil => rfl
  | cons fv rest ih =>
    have hfv := h fv (List.mem_cons_self fv rest)
    have hrest := ih fun x hx => h x (List.mem_cons_of_mem fv hx)
    rcases fv with ⟨f, val⟩
    cases val with
    | str s =>
      simp only [fieldRoundTripSafe] at hfv
      simp only [substParams, List.map_cons] at hrest ⊢
      rw [substField_roundtrip (placeholder k) v s hfv, hrest]
    | raw n =>
      simp only [substParams, List.map_cons] at hrest ⊢
      rw [hrest]

theorem applySubstitutions_single (k v : Str) (ps : Params) :
    applySubstitutions [(k, v)] ps = substParams (placeholder k) v ps := rfl

theorem reverseSubstitutions_single (k v : Str) (ps : Params) :
    reverseSubstitutions [(k, v)] ps = substParams v (placeholder k) ps := rfl

end ContextService

open ContextService

/-- **C1, counterexample.**  The substitution inverse law as stated in the
spec fails even under its own no-collision hypothesis: with the run context
`{k ↦ "aa"}` and the parameter object `{text: "a{{k}}"}`, no context value
occurs in any parameter string (and there is only one context entry, so no
cross-value collision either), yet
`reverseSubstitutions(applySubstitutions(p)) = "{{k}}a" ≠ "a{{k}}"`:
applying yields `"aaa"`, whose *first* occurrence of `"aa"` starts at
index 0 rather than at the substituted spot, so the reverse pass rewrites
the wrong region. -/
theorem c1_counterexample :
    NoValueCollisions [(['k'], ['a', 'a'])]
        [("text", PVal.str ('a' :: placeholder ['k']))] ∧
      reverseSubstitutions [(['k'], ['a', 'a'])]
          (applySubstitutions [(['k'], ['a', 'a'])]
            [("text", PVal.str ('a' :: placeholder ['k']))])
        ≠ [("text", PVal.str ('a' :: placeholder ['k']))] := by
  constructor
  · decide
  · decide

/-- **C1, amended.**  For a single-entry run context (the shape
`ContextService.generateDefaults` produces: only `dynamicEmail`) the
substitution round trip `reverse(apply(p)) = p` holds for every parameter
object `p` each of whose string fields is collision-free in the precise
sense that the first occurrence of the context value in the substituted
field is exactly the occurrence the substitution wrote (in particular the
value must not occur at all when the placeholder is absent, and must not
overlap surrounding text when it is present). -/
theorem c1_amended_roundtrip (k v : Str) (ps : Params)
    (h : ∀ fv ∈ ps, fieldRoundTripSafe k v fv.2) :
    reverseSubstitutions [(k, v)] (applySubstitutions [(k, v)] ps) = ps := by
  rw [applySubstitutions_single, reverseSubstitutions_single]
  exact substParams_roundtrip k v ps h

/-- Witness for `c1_amended_roundtrip` at a concrete run context and
parameter object. -/
theorem c1_amended_roundtrip_witness :
    (∀ fv ∈ ([("selector", PVal.str "#email".toList),
              ("text", PVal.str "Email: {{dynamicEmail}} ok".toList),
              ("count", PVal.raw 3)] : Params),
        fieldRoundTripSafe "dynamicEmail".toList "jordan+jan1@hf.ca".toList fv.2) ∧
      reverseSubstitutions [("dynamicEmail".toList, "jordan+jan1@hf.ca".toList)]
          (applySubstitutions [("dynamicEmail".toList, "jordan+jan1@hf.ca".toList)]
            [("selector", PVal.str "#email".toList),
             ("text", PVal.str "Email: {{dynamicEmail}} ok".toList),
             ("count", PVal.raw 3)])
        = [("selector", PVal.str "#email".toList),
           ("text", PVal.str "Email: {{dynamicEmail}} ok".toList),
           ("count", PVal.raw 3)] :=
  ⟨by decide, c1_amended_roundtrip _ _ _ (by decide)⟩

/-- **C2, counterexample.**  `applySubstitutions` does not replace *every*
occurrence of a placeholder: JavaScript's `String.replace` with a string
pattern replaces only the first one.  With context `{k ↦ "x"}` and the field
`"{{k}} {{k}}"`, the output is `"x {{k}}"`, which still contains the
placeholder. -/
theorem c2_counterexample :
    applySubstitutions [(['k'], ['x'])]
        [("text", PVal.str (placeholder ['k'] ++ ' ' :: placeholder ['k']))]
      = [("text", PVal.str ('x' :: ' ' :: placeholder ['k']))] ∧
      hasSub (placeholder ['k']) ('x' :: ' ' :: placeholder ['k']) = true := by
  constructor
  · decide
  · decide

/-- **C2, amended.**  For each context entry `(key, value)`,
`applySubstitutions` replaces exactly the *first* occurrence of `{{key}}`
in a string-valued field with `value`, leaving everything before and after
that occurrence — including any further occurrences of the placeholder —
unchanged. -/
theorem c2_amended_replaces_first (k v : Str) (f : String) (s : Str) (i : Nat)
    (h : firstIdx (placeholder k) s = some i) :
    applySubstitutions [(k, v)] [(f, PVal.str s)]
      = [(f, PVal.str (s.take i ++ v ++ s.drop (i + (placeholder k).length)))] := by
  rw [applySubstitutions_single]
  simp only [substParams, List.map_cons, List.map_nil]
  unfold substField
  rw [hasSub_eq_isSome_firstIdx, h]
  simp only [Option.isSome_some, if_pos]
  rw [firstIdx_some_replFirst (placeholder k) v s i h]

/-- Witness for `c2_amended_replaces_first` on a concrete field containing
the placeholder twice: only the first occurrence is rewritten. -/
theorem c2_amended_replaces_first_witness :
    firstIdx (placeholder ['k']) (placeholder ['k'] ++ ' ' :: placeholder ['k'])
        = some 0 ∧
      applySubstitutions [(['k'], ['x'])]
          [("text", PVal.str (placeholder ['k'] ++ ' ' :: placeholder ['k']))]
        = [("text", PVal.str
            ((placeholder ['k'] ++ ' ' :: placeholder ['k']).take 0 ++ ['x'] ++
              (placeholder ['k'] ++ ' ' :: placeholder ['k']).drop
                (0 + (placeholder ['k']).length)))] :=
  ⟨by decide, c2_amended_replaces_first ['k'] ['x'] "text" _ 0 (by decide)⟩

/-! ## Conversation window manager: `HybridQuestRunner.trimMessageHistory` -/

/-- Message role, as used by the Bedrock/Anthropic message API. -/
inductive Role
  | user
  | assistant
deriving DecidableEq, Repr

/-- One content block of a message. -/
inductive Block
  | text (s : String)
  | toolUse (id : String)
  | toolResult (id : String)
  | image
deriving DecidableEq, Repr

/-- Message content: either a plain string or an array of blocks
(`Array.isArray(msg.content)` distinguishes the two in the source). -/
inductive MsgContent
  | plain (s : String)
  | blocks (bs : List Block)
deriving DecidableEq, Repr

/-- A conversation message. -/
structure Msg where
  role : Role
  content : MsgContent
deriving DecidableEq, Repr

namespace HybridQuestRunner

/-- `MESSAGE_HISTORY_WINDOW` (src/lib/quests/HybridQuestRunner.ts). -/
def MESSAGE_HISTORY_WINDOW : Nat := 10

/-- `c.type === 'tool_result'` on a content block. -/
def isToolResultBlock : Block → Bool
  | .toolResult _ => true
  | _ => false

/-- The id of a `tool_result` block, if the block is one. -/
def toolResultId : Block → Option String
  | .toolResult id => some id
  | _ => none

/-- The id of a `tool_use` block, if the block is one. -/
def toolUseId : Block → Option String
  | .toolUse id => some id
  | _ => none

/-- Ids of the `tool_result` blocks of a message. -/
def resultIds (m : Msg) : List String :=
  match m.content with
  | .plain _ => []
  | .blocks bs => bs.filterMap toolResultId

/-- Ids of the `tool_use` blocks of a message. -/
def useIds (m : Msg) : List String :=
  match m.content with
  | .plain _ => []
  | .blocks bs => bs.filterMap toolUseId

/-- The walk-back guard of `trimMessageHistory`:
`msg.role === 'user' && Array.isArray(msg.content) &&
 msg.content.some(c => c.type === 'tool_result')`. -/
def isUserToolResultMsg (m : Msg) : Bool :=
  m.role == .user &&
    match m.content with
    | .blocks bs => bs.any isToolResultBlock
    | .plain _ => false

/-- The `while` loop of `trimMessageHistory`: starting from the candidate cut
index, move backward past user tool-result messages (which must stay paired
with the preceding assistant message), stopping at index 1 or at a message
that is not a user tool-result message. -/
def walkBack (msgs : List Msg) : Nat → Nat
  | 0 => 0
  | k + 1 =>
    if h : k + 1 < msgs.length then
      if 1 < k + 1 ∧ isUserToolResultMsg (msgs.get ⟨k + 1, h⟩) then walkBack msgs k
      else k + 1
    else k + 1

/-- The synthetic summary turn `CONTEXT_TRIMMED_MESSAGE(trimmedCount)`. -/
def contextTrimmedMessage (n : Nat) : Msg :=
  ⟨.user, .blocks [.text s!"(Context: {n} earlier messages trimmed. You have been navigating and interacting with the page. Continue from the current state shown in the screenshot.)"]⟩

/-- The final cut index: `keepFromIndex` starts at
`messages.length - MESSAGE_HISTORY_WINDOW`, is walked backward over user
tool-result messages, and is clamped with `Math.max(1, keepFromIndex)`. -/
def keepFromIndex (msgs : List Msg) : Nat :=
  max 1 (walkBack msgs (msgs.length - MESSAGE_HISTORY_WINDOW))

/-- `HybridQuestRunner.trimMessageHistory(messages)`: keep the system prompt
(index 0, `msgs.take 1`) plus the messages from the cut index on
(`msgs.drop (keepFromIndex msgs)`), and replace the elided region (of size
`trimmedCount = keepFromIndex - 1`; if that is `≤ 0` the input is returned
unchanged) by one summary message. -/
def trimMessageHistory (msgs : List Msg) : List Msg :=
  if msgs.length ≤ MESSAGE_HISTORY_WINDOW + 1 then msgs
  else if keepFromIndex msgs ≤ 1 then msgs
  else
    msgs.take 1 ++
      contextTrimmedMessage (keepFromIndex msgs - 1) :: msgs.drop (keepFromIndex msgs)

/-- Pairing check between a message and its immediate predecessor: if the
message carries tool results, the predecessor must be an assistant message
whose tool-use ids include every result id. -/
def pairCheck (prev m : Msg) : Bool :=
  (resultIds m).isEmpty ||
    (prev.role == .assistant &&
      (resultIds m).all fun id => (useIds prev).contains id)

/-- `pairCheck` holding between every pair of adjacent messages, the first
being `prev`. -/
def pairedFrom (prev : Msg) : List Msg → Bool
  | [] => true
  | m :: rest => pairCheck prev m && pairedFrom m rest

/-- The trim invariant of the spec: every tool-result turn is immediately
preceded by the assistant turn containing the matching tool-call ids (and
hence the first message carries no tool results). -/
def pairedOK : List Msg → Bool
  | [] => true
  | m :: rest => (resultIds m).isEmpty && pairedFrom m rest

/-- Structural property of API conversations: tool-result blocks only ever
occur in `user`-role messages. -/
def resultsOnlyInUser (msgs : List Msg) : Bool :=
  msgs.all fun m => (resultIds m).isEmpty || m.role == .user

theorem walkBack_le (msgs : List Msg) (j : Nat) : walkBack msgs j ≤ j := by
  induction j with
  | zero => simp [walkBack]
  | succ k ih =>
    unfold walkBack
    split
    · split
      · omega
      · omega
    · omega

theorem walkBack_not_toolResult (msgs : List Msg) (j : Nat)
    (h1 : 1 < walkBack msgs j) (h2 : walkBack msgs j < msgs.length)
    (hh : (walkBack msgs j) < msgs.length) :
    isUserToolResultMsg (msgs.get ⟨walkBack msgs j, hh⟩) = false := by
  induction j with
  | zero => simp [walkBack] at h1
  | succ k ih =>
    by_cases hlen : k + 1 < msgs.length
    · by_cases hg : 1 < k + 1 ∧ isUserToolResultMsg (msgs.get ⟨k + 1, hlen⟩)
      · have heq : walkBack msgs (k + 1) = walkBack msgs k := by
          conv_lhs => rw [walkBack]
          rw [dif_pos hlen, if_pos hg]
        revert h1 h2 hh
        rw [heq]
        intro h1 h2 hh
        exact ih h1 h2 hh
      · have heq : walkBack msgs (k + 1) = k + 1 := by
          conv_lhs => rw [walkBack]
          rw [dif_pos hlen, if_neg hg]
        revert h1 h2 hh
        rw [heq]
        intro h1 h2 hh
        rcases Decidable.not_and_iff_or_not.mp hg with hlt | hut
        · omega
        · simpa using hut
    · have heq : walkBack msgs (k + 1) = k + 1 := by
        conv_lhs => rw [walkBack]
        rw [dif_neg hlen]
      rw [heq] at h2
      exact absurd h2 hlen

end HybridQuestRunner

namespace HybridQuestRunner

theorem pairedFrom_get_drop (msgs : List Msg) (prev : Msg)
    (hp : pairedFrom prev msgs = true) :
    ∀ (k : Nat) (h : k < msgs.length),
      pairedFrom (msgs.get ⟨k, h⟩) (msgs.drop (k + 1)) = true := by
  induction msgs generalizing prev with
  | nil => intro k h; simp at h
  | cons m rest ih =>
    intro k h
    simp only [pairedFrom, Bool.and_eq_true] at hp
    cases k with
    | zero => simpa using hp.2
    | succ j =>
      have hj : j < rest.length := by simpa using h
      simpa using ih m hp.2 j hj

theorem pairedOK_get_drop (msgs : List Msg) (hp : pairedOK msgs = true) :
    ∀ (k : Nat) (h : k < msgs.length),
      pairedFrom (msgs.get ⟨k, h⟩) (msgs.drop (k + 1)) = true := by
  cases msgs with
  | nil => intro k h; simp at h
  | cons m rest =>
    intro k h
    simp only [pairedOK, Bool.and_eq_true] at hp
    cases k with
    | zero => simpa using hp.2
    | succ j =>
      have hj : j < rest.length := by simpa using h
      simpa using pairedFrom_get_drop rest m hp.2 j hj

theorem any_toolResult_of_filterMap (bs : List Block)
    (h : bs.filterMap toolResultId ≠ []) :
    bs.any isToolResultBlock = true := by
  induction bs with
  | nil => simp at h
  | cons b rest ih =>
    cases b with
    | toolResult id => simp [isToolResultBlock]
    | text s =>
      simp only [List.filterMap_cons, toolResultId] at h
      simp only [List.any_cons, isToolResultBlock, Bool.false_or]
      exact ih h
    | toolUse id =>
      simp only [List.filterMap_cons, toolResultId] at h
      simp only [List.any_cons, isToolResultBlock, Bool.false_or]
      exact ih h
    | image =>
      simp only [List.filterMap_cons, toolResultId] at h
      simp only [List.any_cons, isToolResultBlock, Bool.false_or]
      exact ih h

theorem results_empty_of_not_UT (m : Msg)
    (hro : ((resultIds m).isEmpty || m.role == .user) = true)
    (hnut : isUserToolResultMsg m = false) :
    (resultIds m).isEmpty = true := by
  cases hr : resultIds m with
  | nil => rfl
  | cons x xs =>
    exfalso
    rw [hr] at hro
    simp only [List.isEmpty_cons, Bool.false_or, beq_iff_eq] at hro
    have hUT : isUserToolResultMsg m = true := by
      rcases m with ⟨role, content⟩
      simp only at hro
      subst hro
      cases content with
      | plain s => simp [resultIds] at hr
      | blocks bs =>
        have hne : bs.filterMap toolResultId ≠ [] := by
          simp only [resultIds] at hr
          rw [hr]
          simp
        unfold isUserToolResultMsg
        simp only [beq_self_eq_true, Bool.true_and]
        exact any_toolResult_of_filterMap bs hne
    rw [hUT] at hnut
    exact absurd hnut (by simp)

theorem drop_eq_get_cons (l : List Msg) (k : Nat) (h : k < l.length) :
    l.drop k = l.get ⟨k, h⟩ :: l.drop (k + 1) := by
  rw [List.drop_eq_getElem_cons h]
  rfl

end HybridQuestRunner

namespace HybridQuestRunner

theorem resultIds_contextTrimmedMessage (n : Nat) :
    resultIds (contextTrimmedMessage n) = [] := rfl

theorem pairCheck_of_empty (prev m : Msg) (h : (resultIds m).isEmpty = true) :
    pairCheck prev m = true := by
  unfold pairCheck
  rw [h]
  rfl

end HybridQuestRunner

open HybridQuestRunner

/-- **C3, counterexample.**  The trim invariant does not hold "for any input
message list": on an input that already violates tool-call/tool-result
pairing and is short enough that no trimming occurs — here `[system prompt,
user tool-result message]` — `trimMessageHistory` returns its input
unchanged, so the output contains a tool-result turn whose predecessor is
not an assistant turn with the matching tool-call id. -/
theorem c3_counterexample :
    trimMessageHistory
        [⟨.user, .blocks [.text "sys"]⟩, ⟨.user, .blocks [.toolResult "t1"]⟩]
      = [⟨.user, .blocks [.text "sys"]⟩, ⟨.user, .blocks [.toolResult "t1"]⟩] ∧
      pairedOK (trimMessageHistory
        [⟨.user, .blocks [.text "sys"]⟩, ⟨.user, .blocks [.toolResult "t1"]⟩]) = false := by
  constructor
  · decide
  · decide

/-- **C3, amended.**  For any message list that already satisfies the
pairing invariant (every tool-result turn immediately preceded by the
assistant turn containing the matching tool-call ids) and in which
tool-result blocks occur only in user-role turns (as in every conversation
the runner builds), `trimMessageHistory` preserves the invariant: in its
output, too, every tool-result turn is immediately preceded by the
assistant turn containing the matching tool-call id. -/
theorem c3_amended_trim_preserves_pairing (msgs : List Msg)
    (hres : resultsOnlyInUser msgs = true) (hpair : pairedOK msgs = true) :
    pairedOK (trimMessageHistory msgs) = true := by
  unfold trimMessageHistory
  by_cases hlen : msgs.length ≤ MESSAGE_HISTORY_WINDOW + 1
  · rw [if_pos hlen]
    exact hpair
  · rw [if_neg hlen]
    by_cases hk : keepFromIndex msgs ≤ 1
    · rw [if_pos hk]
      exact hpair
    · rw [if_neg hk]
      push_neg at hk hlen
      have hkw : keepFromIndex msgs
          = walkBack msgs (msgs.length - MESSAGE_HISTORY_WINDOW) := by
        unfold keepFromIndex at hk ⊢
        omega
      have hwle := walkBack_le msgs (msgs.length - MESSAGE_HISTORY_WINDOW)
      have h10 : MESSAGE_HISTORY_WINDOW = 10 := rfl
      have hklt' : walkBack msgs (msgs.length - MESSAGE_HISTORY_WINDOW)
          < msgs.length := by omega
      rw [hkw] at hk ⊢
      rw [show msgs.drop (walkBack msgs (msgs.length - MESSAGE_HISTORY_WINDOW))
          = msgs.get ⟨walkBack msgs (msgs.length - MESSAGE_HISTORY_WINDOW), hklt'⟩ ::
            msgs.drop (walkBack msgs (msgs.length - MESSAGE_HISTORY_WINDOW) + 1)
        from drop_eq_get_cons msgs _ hklt']
      have hnut := walkBack_not_toolResult msgs
        (msgs.length - MESSAGE_HISTORY_WINDOW) hk hklt' hklt'
      have hmem : msgs.get ⟨walkBack msgs (msgs.length - MESSAGE_HISTORY_WINDOW),
          hklt'⟩ ∈ msgs := List.get_mem _ _ _
      have hro := List.all_eq_true.mp hres _ hmem
      have hkres := results_empty_of_not_UT _ hro hnut
      have hdropOK := pairedOK_get_drop msgs hpair
        (walkBack msgs (msgs.length - MESSAGE_HISTORY_WINDOW)) hklt'
      cases msgs with
      | nil => simp at hklt'
      | cons m0 rest =>
        simp only [List.take_succ_cons, List.take_zero, List.cons_append,
          List.nil_append]
        simp only [pairedOK, pairedFrom, Bool.and_eq_true] at hpair ⊢
        exact ⟨hpair.1,
          pairCheck_of_empty _ _ (by rw [resultIds_contextTrimmedMessage]; rfl),
          pairCheck_of_empty _ _ hkres, hdropOK⟩

/-- An assistant turn carrying one tool call. -/
def assistantUse (id : String) : Msg := ⟨.assistant, .blocks [.toolUse id]⟩

/-- A user turn carrying the matching tool result. -/
def userResult (id : String) : Msg :=
  ⟨.user, .blocks [.toolResult id, .text "ok"]⟩

/-- A well-formed 13-turn conversation (system prompt plus six tool rounds),
long enough that `trimMessageHistory` actually trims. -/
def sampleConversation : List Msg :=
  ⟨.user, .blocks [.text "system prompt"]⟩ ::
  [assistantUse "t1", userResult "t1",
   assistantUse "t2", userResult "t2",
   assistantUse "t3", userResult "t3",
   assistantUse "t4", userResult "t4",
   assistantUse "t5", userResult "t5",
   assistantUse "t6", userResult "t6"]

/-- Witness for `c3_amended_trim_preserves_pairing` on a concrete
conversation that the window manager really trims. -/
theorem c3_amended_witness :
    resultsOnlyInUser sampleConversation = true ∧
      pairedOK sampleConversation = true ∧
      pairedOK (trimMessageHistory sampleConversation) = true :=
  ⟨by decide, by decide,
    c3_amended_trim_preserves_pairing sampleConversation (by decide) (by decide)⟩

/-! ## Script Store (`ScriptManager`, expiry-aware version) -/

/-- A stored quest script as persisted to `SCRIPTS_DIR/questId.json`.
`payload` stands for the remaining JSON fields (id, name, steps, …), which
the expiry logic never inspects; `expiresAt` is the optional expiry
timestamp in milliseconds since the epoch. -/
structure StoredScript where
  payload : Nat
  expiresAt : Option Int
deriving DecidableEq, Repr

/-- The scripts directory: one record per quest id. -/
abbrev ScriptStore := List (String × StoredScript)

namespace ScriptManager

/-- Reading `SCRIPTS_DIR/questId.json` (`fs.existsSync` + `readFileSync`). -/
def lookupStore (qid : String) (st : ScriptStore) : Option StoredScript :=
  (st.find? fun e => e.1 == qid).map (·.2)

/-- `fs.unlinkSync(scriptPath)`. -/
def eraseStore (qid : String) (st : ScriptStore) : ScriptStore :=
  st.filter fun e => !(e.1 == qid)

/-- `fs.writeFileSync(scriptPath, ...)`: overwrite the record for `qid`. -/
def writeStore (qid : String) (s : StoredScript) (st : ScriptStore) : ScriptStore :=
  (qid, s) :: eraseStore qid st

/-- `ScriptManager.getScript(questId)` at time `now`: return the stored
script, unless it carries an `expiresAt` in the past, in which case delete
the backing record and return none.  Returns the result together with the
store as left on disk. -/
def getScript (now : Int) (st : ScriptStore) (qid : String) :
    Option StoredScript × ScriptStore :=
  match lookupStore qid st with
  | none => (none, st)
  | some sc =>
    match sc.expiresAt with
    | some e => if e < now then (none, eraseStore qid st) else (some sc, st)
    | none => (some sc, st)

/-- One day of milliseconds.  `expiresAt.setDate(expiresAt.getDate() + days)`
is modelled as adding `days * msPerDay`; JavaScript calendar-day addition
differs from this only across daylight-saving shifts, which do not affect
the expiry logic verified here. -/
def msPerDay : Int := 86400000

/-- `questDef?.scriptExpirationDays || 14`: the per-quest retention window,
defaulting to 14 days (note `||`, so an explicit `0` also falls back). -/
def retentionDays (defs : List (String × Option Nat)) (qid : String) : Nat :=
  match (defs.find? fun d => d.1 == qid).map (·.2) with
  | some (some d) => if d = 0 then 14 else d
  | _ => 14

/-- `ScriptManager.saveScript(questId, script)` at time `now`: stamp the
script with `expiresAt = now + retention window` and overwrite the record. -/
def saveScript (defs : List (String × Option Nat)) (now : Int)
    (st : ScriptStore) (qid : String) (payload : Nat) : ScriptStore :=
  writeStore qid ⟨payload, some (now + (retentionDays defs qid : Int) * msPerDay)⟩ st

theorem lookupStore_erase (qid : String) (st : ScriptStore) :
    lookupStore qid (eraseStore qid st) = none := by
  induction st with
  | nil => rfl
  | cons e rest ih =>
    unfold lookupStore eraseStore at ih ⊢
    by_cases he : e.1 == qid
    · simp only [List.filter_cons, he, Bool.not_true, List.find?]
      exact ih
    · have he' : (e.1 == qid) = false := by simpa using he
      simp only [List.filter_cons, he', Bool.not_false, if_pos, List.find?, he']
      exact ih

end ScriptManager

open ScriptManager

/-- **C4.**  Script expiry: a stored script whose `expiresAt` is in the past
is never returned by `getScript` — the call returns none and deletes the
backing record, and a second call still returns none; and `saveScript`
stamps the stored record with `expiresAt` computed from the per-quest
retention window, which defaults to 14 days for a quest id without a
configured window. -/
theorem c4_script_expiry (now : Int) (st : ScriptStore) (qid : String)
    (sc : StoredScript) (e : Int)
    (hlk : lookupStore qid st = some sc)
    (he : sc.expiresAt = some e) (hpast : e < now) :
    (getScript now st qid).1 = none ∧
      (getScript now st qid).2 = eraseStore qid st ∧
      (getScript now (getScript now st qid).2 qid).1 = none ∧
      (∀ (defs : List (String × Option Nat)) (payload : Nat),
        lookupStore qid (saveScript defs now st qid payload)
          = some ⟨payload, some (now + (retentionDays defs qid : Int) * msPerDay)⟩) ∧
      (∀ defs : List (String × Option Nat),
        (defs.find? fun d => d.1 == qid) = none → retentionDays defs qid = 14) := by
  have hget : getScript now st qid = (none, eraseStore qid st) := by
    unfold getScript
    rw [hlk]
    show (match sc.expiresAt with
      | some e => if e < now then (none, eraseStore qid st) else (some sc, st)
      | none => (some sc, st)) = (none, eraseStore qid st)
    rw [he]
    show (if e < now then (none, eraseStore qid st) else (some sc, st))
      = (none, eraseStore qid st)
    rw [if_pos hpast]
  refine ⟨by rw [hget], by rw [hget], ?_, ?_, ?_⟩
  · rw [hget]
    unfold getScript
    rw [lookupStore_erase]
  · intro defs payload
    unfold saveScript writeStore lookupStore
    simp [List.find?]
  · intro defs hnone
    unfold retentionDays
    rw [hnone]
    rfl

/-- Witness for `c4_script_expiry` on a concrete store holding an expired
script. -/
theorem c4_script_expiry_witness :
    lookupStore "signup" [("signup", ⟨7, some 1000⟩)] = some ⟨7, some 1000⟩ ∧
      (getScript 2000 [("signup", ⟨7, some 1000⟩)] "signup").1 = none ∧
      (getScript 2000 (getScript 2000 [("signup", ⟨7, some 1000⟩)] "signup").2
        "signup").1 = none ∧
      retentionDays [] "signup" = 14 := by
  have h := c4_script_expiry 2000 [("signup", ⟨7, some 1000⟩)] "signup"
    ⟨7, some 1000⟩ 1000 (by decide) rfl (by decide)
  exact ⟨by decide, h.1, h.2.2.1, h.2.2.2.2 [] rfl⟩

/-! ## Element verification engine (`BrowserService.verifyElementAtCoordinates`) -/

namespace BrowserService

/-- What `getElementAtCoordinates` captures about the element under a point:
tag name, visible text snippet, and stable identifier string. -/
structure ElemInfo where
  tag : Str
  text : Str
  identifier : Str
deriving DecidableEq, Repr

/-- The structured result `{matches, actual, expected}` (`isMatch` embeds the
source's `matches` field, whose name is reserved in Lean). -/
structure VerifyResult where
  isMatch : Bool
  actual : Str
  expected : Str
deriving DecidableEq, Repr

/-- JS `\s` on the whitespace characters that occur in page text. -/
def isWsChar (c : Char) : Bool :=
  c == ' ' || c == '\t' || c == '\n' || c == '\r'

/-- Helper for `replace(/\s+/g, ' ')`: `prevWs` records whether the previous
character belonged to a whitespace run already replaced by one space. -/
def collapseWsAux : Bool → Str → Str
  | _, [] => []
  | prevWs, c :: t =>
    if isWsChar c then
      if prevWs then collapseWsAux true t else ' ' :: collapseWsAux true t
    else c :: collapseWsAux false t

/-- `replace(/\s+/g, ' ')`: collapse each whitespace run to a single space. -/
def collapseWs (s : Str) : Str := collapseWsAux false s

/-- `text.toLowerCase()` (ASCII-faithful). -/
def toLowerStr (s : Str) : Str := s.map Char.toLower

/-- `text.toLowerCase().replace(/\s+/g, ' ')`. -/
def normText (s : Str) : Str := collapseWs (toLowerStr s)

/-- A character kept by `replace(/[^a-z0-9\s]/g, ' ')` after lowering. -/
def isLowerAlnum (c : Char) : Bool :=
  ('a' ≤ c && c ≤ 'z') || ('0' ≤ c && c ≤ '9')

/-- `replace(/[^a-z0-9\s]/g, ' ')` on one character. -/
def keepOrSpace (c : Char) : Char :=
  if isLowerAlnum c || isWsChar c then c else ' '

/-- `split(/\s+/)` restricted to its non-empty pieces (the empty pieces JS
produces at a leading separator are removed by the `length > 2` filter
anyway). -/
def wordsAux : Str → Str → List Str
  | cur, [] => if cur.isEmpty then [] else [cur.reverse]
  | cur, c :: t =>
    if isWsChar c then
      if cur.isEmpty then wordsAux [] t else cur.reverse :: wordsAux [] t
    else wordsAux (c :: cur) t

/-- `extractKeywords`: lowercase, keep alphanumerics, split on whitespace,
keep tokens longer than 2 characters. -/
def extractKeywords (text : Str) : List Str :=
  (wordsAux [] ((toLowerStr text).map keepOrSpace)).filter fun w => 2 < w.length

/-- `actualKeywords.some(ak => ak.includes(kw) || kw.includes(ak))`. -/
def kwMatches (actualKws : List Str) (kw : Str) : Bool :=
  actualKws.any fun ak => hasSub kw ak || hasSub ak kw

/-- `matchingKeywords.length`. -/
def matchingKeywordCount (expectedKws actualKws : List Str) : Nat :=
  (expectedKws.filter (kwMatches actualKws)).length

/-- `keywordMatchRatio >= 0.5` with
`keywordMatchRatio = total > 0 ? matchCount / total : 0` (exact rational
comparison; the JS double division is exact at these magnitudes). -/
def ratioGeHalf (matchCount total : Nat) : Bool :=
  decide (0 < total ∧ total ≤ 2 * matchCount)

/-- The `formRelatedTags` list of the iframe relaxation. -/
def formRelatedTags : List Str :=
  ["input".toList, "label".toList, "span".toList, "div".toList,
   "iframe".toList, "button".toList]

/-- The `semanticGroups` table. -/
def semanticGroups : List (List Str) :=
  [["button".toList, "a".toList, "span".toList, "div".toList],
   ["li".toList, "ul".toList, "ol".toList, "div".toList, "nav".toList],
   ["input".toList, "label".toList, "span".toList, "div".toList, "iframe".toList],
   ["p".toList, "span".toList, "div".toList, "label".toList],
   ["h1".toList, "h2".toList, "h3".toList, "h4".toList, "h5".toList,
    "h6".toList, "div".toList, "span".toList],
   ["td".toList, "tr".toList, "th".toList, "div".toList],
   ["section".toList, "article".toList, "div".toList, "main".toList]]

/-- `semanticGroups.some(g => g.includes(actual.tag) && g.includes(expected.tag))`. -/
def tagsInSameGroup (a e : Str) : Bool :=
  semanticGroups.any fun g => g.contains a && g.contains e

/-- The display string `` `${tag}: "${text}"` ``. -/
def fmtElem (e : ElemInfo) : Str :=
  e.tag ++ ": \"".toList ++ e.text ++ "\"".toList

/-- The iframe relaxation guard: either side is an iframe and both tags are
form-related. -/
def iframeRelaxed (actual expected : ElemInfo) : Bool :=
  (expected.tag == "iframe".toList || actual.tag == "iframe".toList) &&
    (formRelatedTags.contains actual.tag && formRelatedTags.contains expected.tag)

/-- The identifier strategy guard: both identifiers non-empty and equal. -/
def identifierMatch (actual expected : ElemInfo) : Bool :=
  !actual.identifier.isEmpty && !expected.identifier.isEmpty &&
    actual.identifier == expected.identifier

/-- Case-insensitive substring containment of the normalised texts, in
either direction. -/
def textContained (actual expected : ElemInfo) : Bool :=
  hasSub (normText expected.text) (normText actual.text) ||
    hasSub (normText actual.text) (normText expected.text)

/-- `BrowserService.verifyElementAtCoordinates`, given the element captured
at the coordinates (`none` when `elementFromPoint` found nothing): the
sequence of early-return checks followed by the combined
`strictMatch || semanticMatch || strongTextMatch` verdict. -/
def verifyElementAtCoordinates (captured : Option ElemInfo)
    (expected : ElemInfo) : VerifyResult :=
  match captured with
  | none => ⟨false, "no element found".toList, fmtElem expected⟩
  | some actual =>
    if iframeRelaxed actual expected then
      ⟨true, fmtElem actual, fmtElem expected⟩
    else if identifierMatch actual expected then
      ⟨true, fmtElem actual, fmtElem expected⟩
    else if textContained actual expected &&
        decide (3 < (normText expected.text).length) then
      ⟨true, fmtElem actual, fmtElem expected⟩
    else
      let actualKeywords := extractKeywords actual.text
      let expectedKeywords := extractKeywords expected.text
      let matchCount := matchingKeywordCount expectedKeywords actualKeywords
      let semanticMatch := tagsInSameGroup actual.tag expected.tag &&
        ratioGeHalf matchCount expectedKeywords.length
      let strongTextMatch := ratioGeHalf matchCount expectedKeywords.length &&
        decide (2 ≤ expectedKeywords.length)
      let strictMatch := actual.tag == expected.tag &&
        (textContained actual expected || actual.text == expected.text)
      ⟨strictMatch || semanticMatch || strongTextMatch,
        fmtElem actual, fmtElem expected⟩

/-- The matching cascade exactly as the claim states it: (a) identifier,
(b) containment with text length > 3, (c) iframe relaxation, (d) tag group
plus ≥50 % keyword overlap, (e) ≥50 % keyword overlap alone — with no
further strategy and no minimum keyword count in (e). -/
def claimCascadeMatch (actual expected : ElemInfo) : Bool :=
  identifierMatch actual expected ||
  (textContained actual expected && decide (3 < (normText expected.text).length)) ||
  iframeRelaxed actual expected ||
  (tagsInSameGroup actual.tag expected.tag &&
    ratioGeHalf (matchingKeywordCount (extractKeywords expected.text)
      (extractKeywords actual.text)) (extractKeywords expected.text).length) ||
  ratioGeHalf (matchingKeywordCount (extractKeywords expected.text)
    (extractKeywords actual.text)) (extractKeywords expected.text).length

/-- The cascade as amended: the strategies of the claim, with the keyword-
overlap-alone strategy requiring at least two expected keywords, plus the
code's additional strict strategy (equal tags combined with text containment
or exact text equality). -/
def amendedCascadeMatch (actual expected : ElemInfo) : Bool :=
  iframeRelaxed actual expected ||
  identifierMatch actual expected ||
  (textContained actual expected && decide (3 < (normText expected.text).length)) ||
  ((actual.tag == expected.tag &&
      (textContained actual expected || actual.text == expected.text)) ||
    (tagsInSameGroup actual.tag expected.tag &&
      ratioGeHalf (matchingKeywordCount (extractKeywords expected.text)
        (extractKeywords actual.text)) (extractKeywords expected.text).length) ||
    (ratioGeHalf (matchingKeywordCount (extractKeywords expected.text)
        (extractKeywords actual.text)) (extractKeywords expected.text).length &&
      decide (2 ≤ (extractKeywords expected.text).length)))

end BrowserService

open BrowserService

/-- **C5, counterexample.**  The claimed cascade is not the one implemented:
for `expected = ⟨button, "pay", ""⟩` and `actual = ⟨table,
"payment options", "table"⟩`, 100 % of the expected keywords (the single
token "pay") appear in the actual text, so the claim's strategy (e) makes
this a match, but the code requires at least two expected keywords for a
keyword-overlap-only match (`strongTextMatch`), shares no tag group between
`button` and `table`, and therefore reports a mismatch. -/
theorem c5_counterexample :
    claimCascadeMatch
        ⟨"table".toList, "payment options".toList, "table".toList⟩
        ⟨"button".toList, "pay".toList, []⟩ = true ∧
      (verifyElementAtCoordinates
        (some ⟨"table".toList, "payment options".toList, "table".toList⟩)
        ⟨"button".toList, "pay".toList, []⟩).isMatch = false := by
  constructor
  · decide
  · decide

/-- **C5, amended.**  `verifyElementAtCoordinates` reports a match exactly
when one of these strategies succeeds: iframe relaxation (checked first),
exact non-empty stable-identifier match, case-insensitive text containment
in either direction with normalised expected text longer than 3 characters,
equal tags combined with text containment or equality, tag-group
equivalence combined with ≥50 % keyword overlap, or ≥50 % keyword overlap
alone when there are at least two expected keywords; when no element is
captured at the coordinates, or every strategy fails, the result is a
mismatch. -/
theorem c5_amended_cascade (actual expected : ElemInfo) :
    (verifyElementAtCoordinates (some actual) expected).isMatch
        = amendedCascadeMatch actual expected ∧
      (verifyElementAtCoordinates none expected).isMatch = false := by
  constructor
  · unfold verifyElementAtCoordinates amendedCascadeMatch
    by_cases hif : iframeRelaxed actual expected
    · simp [hif]
    · simp only [Bool.not_eq_true] at hif
      by_cases hid : identifierMatch actual expected
      · simp [hif, hid]
      · simp only [Bool.not_eq_true] at hid
        by_cases hct : (textContained actual expected &&
            decide (3 < (normText expected.text).length)) = true
        · simp [hif, hid, hct]
        · simp only [Bool.not_eq_true] at hct
          simp [hif, hid, hct, Bool.or_comm, Bool.or_assoc, Bool.or_left_comm]
  · rfl

/-! ## Runner orchestration (`HybridQuestRunner.run` / `runAI` /
`performAIReview`)

The runner is effectful: browser actions, LLM invocations and file writes are
asynchronous calls.  They are embedded as oracle functions supplied in an
environment record; each oracle value stands for the outcome of one concrete
external call (a thrown exception is an `Except.error`).  The conversation
`messages` array itself is not tracked: it is consumed only by the LLM, whose
replies are already part of the environment (`trimMessageHistory`, which
transforms it, is embedded and verified separately above). -/

/-- The tool names of the `BROWSER_TOOLS` catalogue. -/
inductive ToolName
  | navigate
  | typeText
  | clickAtCoordinates
  | click
  | scroll
  | pressKey
  | randomWait
  | wait
deriving DecidableEq, Repr

namespace HybridQuestRunner

/-- `toolName === 'random_wait' || toolName === 'wait'`. -/
def isWaitTool : ToolName → Bool
  | .randomWait => true
  | .wait => true
  | _ => false

/-- `toolName === 'click' || toolName === 'type_text'`. -/
def isSelectorTool : ToolName → Bool
  | .click => true
  | .typeText => true
  | _ => false

/-- `HybridQuestRunner.toolChangesPage`. -/
def toolChangesPage : ToolName → Bool
  | .navigate => true
  | .click => true
  | .clickAtCoordinates => true
  | .typeText => true
  | .scroll => true
  | .pressKey => true
  | _ => false

/-- `MAX_CONSECUTIVE_WAITS` (src/lib/quests/HybridQuestRunner.ts). -/
def MAX_CONSECUTIVE_WAITS : Nat := 3

/-- Observable page state: the URL (`page.url()`) plus an abstract summary of
the rest of the page (DOM, focus, form values). -/
structure BrowserState where
  url : String
  dom : Nat
deriving DecidableEq, Repr

/-- A tool call requested by the agent: the tool name and its input object. -/
structure ToolUse where
  name : ToolName
  params : Params
deriving DecidableEq, Repr

/-- `toolInput.selector`: the selector field of the input object, when it is
present and a string. -/
def ToolUse.selector (tu : ToolUse) : Option Str :=
  match tu.params.lookup "selector" with
  | some (.str s) => some s
  | _ => none

/-- A recorded `QuestStep` as the runner builds it (`type` and `params`; the
params are stored in reverse-substituted, templated form). -/
structure Step where
  name : ToolName
  params : Params
deriving DecidableEq, Repr

/-- The events of the `AgentEvent` stream sent to the UI. -/
inductive Event
  | log (msg : String)
  | screenshot
  | urlUpdate (url : String)
  | result (text : String)
  | error (msg : String)
  | done
  | tokenUsage
deriving DecidableEq, Repr

/-- The review verdict parsed from the reviewer's JSON
(`{success, reason, data}`). -/
structure ReviewVerdict where
  success : Bool
  reason : Option String
  data : Option String
deriving DecidableEq, Repr

/-- The structured result of `performAIReview`. -/
structure ReviewResult where
  success : Bool
  reason : Option String
  extractedData : Option String
deriving DecidableEq, Repr

/-- Oracles for one `performAIReview` call: the screenshot capture
(`none` = capture failed), the model invocation (`Except.error` = transport
exception; otherwise the text of the first content block, `none` when the
block has no text, plus whether usage data was returned), and the outcome of
`JSON.parse` on the extracted `{...}` substring of this response. -/
structure ReviewEnv where
  shot : Option String
  resp : Except String (Option String × Bool)
  parse : Except Unit ReviewVerdict

/-- `text.match(/\{[\s\S]*\}/)`: the substring from the first `{` that is
followed by some later `}`, through the last `}` of the text (regex leftmost
match with greedy `[\s\S]*`), if the text contains such a pair. -/
def extractJson (cs : Str) : Option Str :=
  let t := cs.dropWhile fun c => !(c == '{')
  let u := (t.reverse.dropWhile fun c => !(c == '}')).reverse
  if 2 ≤ u.length then some u else none

/-- `HybridQuestRunner.performAIReview`, given the oracle outcomes of its
three external calls.  Returns the verdict together with the events emitted
along the way. -/
def performAIReview (renv : ReviewEnv) : ReviewResult × List Event :=
  match renv.shot with
  | none =>
    (⟨false, some "Failed to capture screenshot", none⟩,
      [.log "Failed to capture screenshot"])
  | some _ =>
    let ev0 : List Event := [.screenshot]
    match renv.resp with
    | .error msg => (⟨false, some ("AI Error: " ++ msg), none⟩, ev0)
    | .ok (text?, hasUsage) =>
      let ev1 := ev0 ++
        if hasUsage then [Event.log "QA Review Token Usage", Event.tokenUsage]
        else []
      match text? with
      | none => (⟨false, some "AI Error: no text content", none⟩, ev1)
      | some text =>
        match extractJson text.toList with
        | none => (⟨false, some "Could not parse AI response", none⟩, ev1)
        | some _ =>
          match renv.parse with
          | .error _ => (⟨false, some "AI Error: JSON parse error", none⟩, ev1)
          | .ok v => (⟨v.success, v.reason, v.data⟩, ev1)

/-- The claim's hypothesis "the text contains no JSON object": there is no
position holding `{` with a later position holding `}`. -/
def NoJsonObject (cs : Str) : Prop :=
  ∀ i, (hi : i < cs.length) → ∀ j, (hj : j < cs.length) → i < j →
    ¬(cs.get ⟨i, hi⟩ = '{' ∧ cs.get ⟨j, hj⟩ = '}')

instance (cs : Str) : Decidable (NoJsonObject cs) := by
  unfold NoJsonObject
  infer_instance

theorem dropWhile_all_not (p : Char → Bool) (cs : Str)
    (h : ∀ c ∈ cs, p c = true) : cs.dropWhile p = [] := by
  induction cs with
  | nil => rfl
  | cons c t ih =>
    rw [List.dropWhile_cons]
    rw [h c (List.mem_cons_self c t)]
    simp only [if_pos]
    exact ih fun x hx => h x (List.mem_cons_of_mem c hx)

theorem extractJson_none_of_noClose (cs : Str)
    (h : ∀ c ∈ cs, (!(c == '}')) = true) : extractJson cs = none := by
  have h2 : ((cs.dropWhile fun c => !(c == '{')).reverse.dropWhile
      fun c => !(c == '}')) = [] := by
    apply dropWhile_all_not
    intro x hx
    exact h x (List.Sublist.subset (List.dropWhile_sublist _)
      (List.mem_reverse.mp hx))
  simp only [extractJson, h2, List.reverse_nil, List.length_nil]
  rfl

theorem extractJson_none_of_noJson (cs : Str) (h : NoJsonObject cs) :
    extractJson cs = none := by
  induction cs with
  | nil => rfl
  | cons c t ih =>
    by_cases hc : c = '{'
    · subst hc
      have hnoClose : ∀ x ∈ '{' :: t, (!(x == '}')) = true := by
        intro x hx
        rcases List.mem_cons.mp hx with hx0 | hxt
        · subst hx0; rfl
        · rcases List.get_of_mem hxt with ⟨⟨j, hj⟩, hget⟩
          have := h 0 (by simp) (j + 1) (by simpa using Nat.succ_lt_succ hj)
            (Nat.succ_pos j)
          simp only [List.get_cons_zero, List.get_cons_succ] at this
          rw [hget] at this
          have hx' : ¬x = '}' := fun hxe => this ⟨rfl, hxe⟩
          simpa using hx'
      exact extractJson_none_of_noClose _ hnoClose
    · have hcb : (!(c == '{')) = true := by simpa using hc
      have hstep : extractJson (c :: t) = extractJson t := by
        simp only [extractJson, List.dropWhile_cons, hcb, if_true]
      rw [hstep]
      apply ih
      intro i hi j hj hij
      have := h (i + 1) (by simpa using Nat.succ_lt_succ hi)
        (j + 1) (by simpa using Nat.succ_lt_succ hj) (by omega)
      simpa using this

end HybridQuestRunner

open HybridQuestRunner in
/-- **C9.**  When the screenshot and model invocation succeed but the
reviewer's text contains no JSON object (no `{` followed by a later `}`),
`performAIReview` returns `{success: false, reason: "Could not parse AI
response"}` — a parsing failure is never reported as success. -/
theorem c9_unparseable_review_fails (renv : ReviewEnv) (s text : String)
    (hasUsage : Bool) (hshot : renv.shot = some s)
    (hresp : renv.resp = .ok (some text, hasUsage))
    (hnj : NoJsonObject text.toList) :
    (performAIReview renv).1
      = ⟨false, some "Could not parse AI response", none⟩ := by
  have hej := extractJson_none_of_noJson text.toList hnj
  simp only [performAIReview, hshot, hresp, hej]

open HybridQuestRunner in
/-- Witness for `c9_unparseable_review_fails` at the spec's own scenario:
the reviewer answers `"I think it worked"`. -/
theorem c9_unparseable_review_fails_witness :
    NoJsonObject "I think it worked".toList ∧
      (performAIReview ⟨some "shot", .ok (some "I think it worked", false),
        .error ()⟩).1 = ⟨false, some "Could not parse AI response", none⟩ :=
  ⟨by decide,
    c9_unparseable_review_fails _ "shot" "I think it worked" false rfl rfl
      (by decide)⟩

namespace HybridQuestRunner

/-- Oracles for one `runAI` invocation: `agent t` is the model reply at loop
iteration `t` (`Except.error` = transport exception; otherwise the tool_use
blocks of the reply and whether usage data came back), `execTool t i tu b` is
the outcome of executing the `i`-th requested tool of iteration `t` against
browser state `b`, and `shot t` is the batched screenshot of iteration `t`. -/
structure RunAIEnv where
  agent : Nat → Except String (List ToolUse × Bool)
  execTool : Nat → Nat → ToolUse → BrowserState → Except String BrowserState
  shot : Nat → Option String

/-- The mutable state of the AI execution loop: current page state, the
run-wide `recordedSteps`, and the loop-local `failedSelectors`, `lastUrl`
and `consecutiveWaitCount`. -/
structure AIState where
  browser : BrowserState
  recorded : List Step
  failedSelectors : List Str
  lastUrl : String
  waitCount : Nat
deriving DecidableEq, Repr

/-- The error thrown when a known-failed selector is reused (the source
message also interpolates the selector). -/
def alreadyTriedMessage : String :=
  "You have already tried this selector on this page and it failed. Do not use it again. Pick a different selector."

/-- The stuck-detection failure message. -/
def stuckMessage : String :=
  "Mission failed: AI used wait tool 3 times consecutively. The agent appears to be stuck and unable to make progress."

/-- One entry of the `toolResults` batch. -/
structure ToolResultEntry where
  name : ToolName
  resultText : String
deriving DecidableEq, Repr

/-- Append a failed selector (`if (badSelector) failedSelectors.push(...)`;
an absent or empty selector is falsy and not recorded). -/
def pushFailedSelector (st : AIState) (sel : Option Str) : AIState :=
  match sel with
  | some s => if s.isEmpty then st else
      {st with failedSelectors := st.failedSelectors ++ [s]}
  | none => st

/-- The body of `for (const toolUse of toolUses)` for one tool call:
reject a selector already known to have failed on this URL (an error tool
result produced before any browser call), otherwise execute the tool; on
success emit the `url_update` event, record the step with reverse-substituted
params, and clear `failedSelectors` after a selector tool succeeds following
earlier failures (the winning selector is learned into the knowledge base);
on error record the failed selector.  Finally update the consecutive-wait
counter (incremented by `wait`/`random_wait`, reset by anything else). -/
def execOneTool (env : RunAIEnv) (ctx : RunCtx) (turn idx : Nat)
    (st : AIState) (tu : ToolUse) : AIState × List Event × ToolResultEntry :=
  let rejected := isSelectorTool tu.name &&
    match tu.selector with
    | some s => decide (s ∈ st.failedSelectors)
    | none => false
  let (st1, evs, resText) :=
    if rejected then
      (pushFailedSelector st tu.selector, ([] : List Event),
        "Error: " ++ alreadyTriedMessage)
    else
      match env.execTool turn idx tu st.browser with
      | .error msg =>
        (if isSelectorTool tu.name then pushFailedSelector st tu.selector
         else st, ([] : List Event), "Error: " ++ msg)
      | .ok b' =>
        ({st with
            browser := b',
            recorded := st.recorded ++
              [⟨tu.name, ContextService.reverseSubstitutions ctx tu.params⟩],
            failedSelectors :=
              if decide (st.failedSelectors ≠ []) && isSelectorTool tu.name
              then [] else st.failedSelectors},
          [Event.urlUpdate b'.url], "Success")
  ({st1 with waitCount := if isWaitTool tu.name then st.waitCount + 1 else 0},
    Event.log "AI tool" :: evs, ⟨tu.name, resText⟩)

/-- The `for (const toolUse of toolUses)` loop. -/
def processTools (env : RunAIEnv) (ctx : RunCtx) (turn : Nat) :
    Nat → List ToolUse → AIState → AIState × List Event × List ToolResultEntry
  | _, [], st => (st, [], [])
  | idx, tu :: rest, st =>
    let (st1, evs1, r1) := execOneTool env ctx turn idx st tu
    let (st2, evs2, rs) := processTools env ctx turn (idx + 1) rest st1
    (st2, evs1 ++ evs2, r1 :: rs)

/-- The start-of-iteration URL check: `if (currentUrl !== lastUrl)
{ failedSelectors = []; lastUrl = currentUrl; }`. -/
def refreshFailedSelectors (st : AIState) : AIState :=
  if st.browser.url ≠ st.lastUrl then
    {st with failedSelectors := [], lastUrl := st.browser.url}
  else st

/-- The captured-screenshot events of `captureScreenshot()`. -/
def shotEvents (sh : Option String) : List Event :=
  match sh with
  | some _ => [Event.screenshot]
  | none => [Event.log "Failed to capture screenshot"]

/-- The `for (let i = 0; i < remainingSteps; i++)` loop of `runAI`:
per iteration, clear the failed selectors on a URL change, invoke the model,
stop when the reply carries no tool calls, otherwise execute the batch,
fail the run when the consecutive-wait counter reaches
`MAX_CONSECUTIVE_WAITS`, and take the batched screenshot.  Returns the
emitted events and either the final state or the thrown error. -/
def runAILoop (env : RunAIEnv) (ctx : RunCtx) :
    Nat → Nat → AIState → List Event × Except String AIState
  | 0, _, st => ([], .ok st)
  | fuel + 1, i, st =>
    let st0 := refreshFailedSelectors st
    match env.agent i with
    | .error msg => ([Event.log "AI Step: Thinking..."], .error msg)
    | .ok (toolUses, hasUsage) =>
      let evs0 := Event.log "AI Step: Thinking..." ::
        (if hasUsage then [Event.log "AI Token Usage", Event.tokenUsage] else [])
      if toolUses.isEmpty then
        (evs0 ++
          Event.log "AI finished quest. Proceeding to verification..." ::
          shotEvents (env.shot i), .ok st0)
      else
        let (st1, evsT, _results) := processTools env ctx i 0 toolUses st0
        if MAX_CONSECUTIVE_WAITS ≤ st1.waitCount then
          (evs0 ++ evsT ++ [Event.log stuckMessage, Event.error stuckMessage],
            .error stuckMessage)
        else
          let (evsRest, out) := runAILoop env ctx fuel (i + 1) st1
          (evs0 ++ evsT ++ shotEvents (env.shot i) ++ evsRest, out)

/-- `HybridQuestRunner.runAI`: run the loop over the remaining step budget
(`maxSteps - recordedSteps.length`) starting from fresh loop-local state,
then emit the max-steps notice when the budget was exhausted. -/
def runAI (env : RunAIEnv) (ctx : RunCtx) (maxSteps : Nat) (b : BrowserState)
    (recorded : List Step) : List Event × Except String AIState :=
  match runAILoop env ctx (maxSteps - recorded.length) 0
      ⟨b, recorded, [], b.url, 0⟩ with
  | (evs, .ok st) =>
    (evs ++
      (if maxSteps ≤ st.recorded.length then
        [Event.log "Max steps reached. Stopping quest.",
         Event.result "Quest stopped because the maximum number of steps was reached."]
      else []), .ok st)
  | (evs, .error msg) => (evs, .error msg)

/-- The consecutive-wait counter after a batch of tool calls, starting from
count `c`: incremented by each wait-type call, reset by anything else. -/
def trailingWaits (c : Nat) (tus : List ToolUse) : Nat :=
  tus.foldl (fun acc tu => if isWaitTool tu.name then acc + 1 else 0) c

theorem execOneTool_waitCount (env : RunAIEnv) (ctx : RunCtx) (turn idx : Nat)
    (st : AIState) (tu : ToolUse) :
    (execOneTool env ctx turn idx st tu).1.waitCount
      = if isWaitTool tu.name then st.waitCount + 1 else 0 := by
  unfold execOneTool
  split <;> rfl

theorem processTools_waitCount (env : RunAIEnv) (ctx : RunCtx) (turn : Nat) :
    ∀ (tus : List ToolUse) (idx : Nat) (st : AIState),
      (processTools env ctx turn idx tus st).1.waitCount
        = trailingWaits st.waitCount tus := by
  intro tus
  induction tus with
  | nil => intro idx st; rfl
  | cons tu rest ih =>
    intro idx st
    show (processTools env ctx turn (idx + 1) rest
        (execOneTool env ctx turn idx st tu).1).1.waitCount = _
    rw [ih]
    unfold trailingWaits
    rw [List.foldl_cons, execOneTool_waitCount]

end HybridQuestRunner

namespace HybridQuestRunner

/-- A cached script as the runner consumes it: the step list and, per global
success criterion, the outcome its validation would produce (the validation
service is an external capability; each criterion is represented by the
boolean its check returns on the final page). -/
structure ScriptRec where
  steps : List Step
  criteriaResults : Option (List Bool)
deriving DecidableEq, Repr

/-- Oracles for one `run` invocation: browser launch, the stored script,
per-index `executeStep` outcomes (internal one-retry included; `none` =
failure after retry, otherwise the resulting page state) and screenshots,
the run context, the agent-loop environments of the first and of the retry
`runAI` invocation, and the reviewer environments of the up-to-three
`performAIReview` calls (0 = after pure script replay, 1 = after the first
agent loop, 2 = after the retry loop). -/
structure RunEnv where
  launch : Except String BrowserState
  script : Option ScriptRec
  stepExec : Nat → Option BrowserState
  stepShot : Nat → Option String
  ctx : RunCtx
  aiEnv1 : RunAIEnv
  aiEnv2 : RunAIEnv
  review : Nat → ReviewEnv

/-- Terminal status of a run, as written to the QuestLog. -/
inductive RunStatus
  | success
  | failed
deriving DecidableEq, Repr

/-- What a finished run leaves behind: the QuestLog status, the script
passed to `ScriptManager.saveScript` (if any), the final recorded step
history (meaningful for completed runs), and whether the run ended on the
cached-script fast path. -/
structure RunOutcome where
  status : RunStatus
  savedScript : Option (List Step)
  recorded : List Step
  viaScript : Bool
deriving DecidableEq, Repr

/-- The script-replay loop of `run`: execute cached steps in order,
accumulating the successfully executed prefix into the recorded history;
stop at the first failure, reporting its index. -/
def replaySteps (env : RunEnv) :
    List Step → Nat → BrowserState →
      List Event × BrowserState × List Step × Option Nat
  | [], _, b => ([], b, [], none)
  | step :: rest, i, b =>
    match env.stepExec i with
    | some b' =>
      let evs := [Event.log "script step", Event.urlUpdate b'.url] ++
        shotEvents (env.stepShot i)
      let (evs', b'', executed, fidx) := replaySteps env rest (i + 1) b'
      (evs ++ evs', b'', step :: executed, fidx)
    | none =>
      ([Event.log "script step", Event.log "Step failed after retry",
        Event.log "Script failed. Switching to AI mode."], b, [], some i)

/-- The final wait step appended before persisting
(`{type: 'wait', params: {duration: 2000}, ...}`). -/
def finalWaitStep : Step := ⟨.wait, [("duration", PVal.raw 2000)]⟩

/-- Whether the last recorded step is already a wait
(`lastRecordedStep.type === 'wait' || === 'random_wait'`). -/
def lastIsWait (steps : List Step) : Bool :=
  match steps.getLast? with
  | some s => isWaitTool s.name
  | none => false

/-- The global success-criteria check of `run`: the replayed script is
treated as failed at its end when some criterion's validation fails. -/
def criteriaFailed (sc : ScriptRec) : Bool :=
  match sc.criteriaResults with
  | some l => l.any fun x => !x
  | none => false

/-- The trailing events of the `catch` block of `run`: the failed QuestLog
write, the runner-error log, and the final `error` event (the `finally`
browser cleanup emits nothing). -/
def catchEvents (msg : String) : List Event :=
  [Event.log "Quest log saved", Event.log "Runner Error", Event.error msg]

/-- The terminal block of `run` after the last review (`reviewResult`): on
success, persist the recorded history — with `finalWaitStep` appended unless
the last step is already a wait — when it is non-empty, write the success
QuestLog and emit `result` then `done`; on failure, write the failed
QuestLog and emit `error` (and no `done`). -/
def finishPhase (st : AIState) (r : ReviewResult) : List Event × RunOutcome :=
  if r.success then
    if st.recorded.isEmpty then
      ([Event.log "Quest log saved",
        Event.result "Quest completed successfully.", Event.done],
        ⟨.success, none, st.recorded, false⟩)
    else
      ([Event.log "Saving updated script for future runs...",
        Event.log "Quest log saved",
        Event.result "Quest completed successfully.", Event.done],
        ⟨.success,
          some (if lastIsWait st.recorded then st.recorded
            else st.recorded ++ [finalWaitStep]),
          st.recorded, false⟩)
  else
    ([Event.log "AI Review Failed",
      Event.log "Step failed: AI Review determined mission incomplete",
      Event.log "Quest log saved",
      Event.error ("Mission flagged by AI Review: " ++
        (match r.reason with | some m => m | none => "undefined"))],
      ⟨.failed, none, st.recorded, false⟩)

/-- Lines 1341–1455 of the runner: hand control to the agent loop, review,
retry once on review failure (extending the step budget by 10 when the
recorded history is within 5 steps of it), review again, and finish; a
`runAI` exception falls through to the `catch` block. -/
def aiPhase (env : RunEnv) (maxSteps : Nat) (b : BrowserState)
    (recorded : List Step) : List Event × RunOutcome :=
  match runAI env.aiEnv1 env.ctx maxSteps b recorded with
  | (evs1, .error msg) =>
    (evs1 ++ catchEvents msg, ⟨.failed, none, recorded, false⟩)
  | (evs1, .ok st1) =>
    let (r1, evR1) := performAIReview (env.review 1)
    if r1.success then
      let (evF, out) := finishPhase st1 r1
      (evs1 ++ Event.log "Requesting final AI review of mission status..." ::
        evR1 ++ evF, out)
    else
      let maxSteps' := if maxSteps - 5 ≤ st1.recorded.length then maxSteps + 10
        else maxSteps
      match runAI env.aiEnv2 env.ctx maxSteps' st1.browser st1.recorded with
      | (evs2, .error msg) =>
        (evs1 ++ Event.log "Requesting final AI review of mission status..." ::
          evR1 ++ Event.log "AI Review Failed. Attempting to fix (one-time retry)..." ::
          evs2 ++ catchEvents msg, ⟨.failed, none, recorded, false⟩)
      | (evs2, .ok st2) =>
        let (r2, evR2) := performAIReview (env.review 2)
        let (evF, out) := finishPhase st2 r2
        (evs1 ++ Event.log "Requesting final AI review of mission status..." ::
          evR1 ++ Event.log "AI Review Failed. Attempting to fix (one-time retry)..." ::
          evs2 ++ Event.log "Requesting second AI review after fix attempt..." ::
          evR2 ++ evF, out)

/-- `HybridQuestRunner.run(questId, questDescription)`: generate the run
context, launch the browser, replay the cached script (when one is stored),
verify its global success criteria, take the cached-script fast path when an
AI review confirms the replayed result, and otherwise hand off to the agent
phase; a launch failure falls through to the `catch` block. -/
def run (env : RunEnv) (maxSteps : Nat) : List Event × RunOutcome :=
  let ev0 := [Event.log "Context initialized with dynamic variables:",
    Event.log "Launching browser..."]
  match env.launch with
  | .error msg => (ev0 ++ catchEvents msg, ⟨.failed, none, [], false⟩)
  | .ok b0 =>
    match env.script with
    | none =>
      let (evA, out) := aiPhase env maxSteps b0 []
      (ev0 ++ Event.log "No existing script found. Starting fresh with AI." ::
        Event.log "Starting AI Agent execution..." :: evA, out)
    | some sc =>
      let (evR, b1, executed, fidx) := replaySteps env sc.steps 0 b0
      match fidx with
      | some _ =>
        let (evA, out) := aiPhase env maxSteps b1 executed
        (ev0 ++ Event.log "Found existing script. Executing..." :: evR ++
          Event.log "Handing over to AI." :: evA, out)
      | none =>
        if criteriaFailed sc then
          let (evA, out) := aiPhase env maxSteps b1 executed
          (ev0 ++ Event.log "Found existing script. Executing..." :: evR ++
            Event.log "Global success criteria failed. Script was incomplete." ::
            Event.log "Handing over to AI." :: evA, out)
        else
          let (r0, evR0) := performAIReview (env.review 0)
          if r0.success then
            (ev0 ++ Event.log "Found existing script. Executing..." :: evR ++
              Event.log "Script execution finished. Performing AI verification..." ::
              evR0 ++
              [Event.log "Quest completed successfully using cached script!",
               Event.log "Quest log saved",
               Event.result "Quest completed efficiently using saved script.",
               Event.done],
              ⟨.success, none, executed, true⟩)
          else
            let (evA, out) := aiPhase env maxSteps b1 executed
            (ev0 ++ Event.log "Found existing script. Executing..." :: evR ++
              Event.log "Script execution finished. Performing AI verification..." ::
              evR0 ++ Event.log "Script finished but AI review failed." ::
              Event.log "Handing over to AI." :: evA, out)

end HybridQuestRunner

namespace HybridQuestRunner

theorem pushFailedSelector_browser (st : AIState) (sel : Option Str) :
    (pushFailedSelector st sel).browser = st.browser := by
  unfold pushFailedSelector
  cases sel with
  | none => rfl
  | some s => by_cases h : s.isEmpty <;> simp [h]

theorem pushFailedSelector_recorded (st : AIState) (sel : Option Str) :
    (pushFailedSelector st sel).recorded = st.recorded := by
  unfold pushFailedSelector
  cases sel with
  | none => rfl
  | some s => by_cases h : s.isEmpty <;> simp [h]

theorem execOneTool_rejected (env : RunAIEnv) (ctx : RunCtx) (turn idx : Nat)
    (st : AIState) (tu : ToolUse) (s : Str)
    (htool : isSelectorTool tu.name = true)
    (hsel : tu.selector = some s)
    (hmem : s ∈ st.failedSelectors) :
    execOneTool env ctx turn idx st tu
      = ({pushFailedSelector st (some s) with
            waitCount := if isWaitTool tu.name then st.waitCount + 1 else 0},
          [Event.log "AI tool"],
          ⟨tu.name, "Error: " ++ alreadyTriedMessage⟩) := by
  have hd : decide (s ∈ st.failedSelectors) = true := decide_eq_true hmem
  simp only [execOneTool, hsel, htool, hd, Bool.true_and, if_true]

end HybridQuestRunner

open HybridQuestRunner

/-- **C10.**  Within the AI execution loop: a `click` or `type_text` tool
call whose selector is in the current failed-selector set produces an error
tool result without any browser action — the page state and recorded history
are untouched by the rejected call — and the failed-selector set is emptied
at the start of any iteration whose page URL differs from the last seen URL. -/
theorem c10_failed_selector_rejection (env : RunAIEnv) (ctx : RunCtx)
    (turn idx : Nat) (st : AIState) (tu : ToolUse) (s : Str)
    (htool : isSelectorTool tu.name = true)
    (hsel : tu.selector = some s)
    (hmem : s ∈ st.failedSelectors) :
    ((execOneTool env ctx turn idx st tu).2.2.resultText
        = "Error: " ++ alreadyTriedMessage) ∧
      (execOneTool env ctx turn idx st tu).1.browser = st.browser ∧
      (execOneTool env ctx turn idx st tu).1.recorded = st.recorded ∧
      (∀ st2 : AIState, st2.browser.url ≠ st2.lastUrl →
        (refreshFailedSelectors st2).failedSelectors = []) := by
  rw [execOneTool_rejected env ctx turn idx st tu s htool hsel hmem]
  refine ⟨rfl, ?_, ?_, ?_⟩
  · show (pushFailedSelector st (some s)).browser = st.browser
    exact pushFailedSelector_browser st (some s)
  · show (pushFailedSelector st (some s)).recorded = st.recorded
    exact pushFailedSelector_recorded st (some s)
  · intro st2 hurl
    unfold refreshFailedSelectors
    rw [if_pos hurl]

/-- Witness for `c10_failed_selector_rejection` on a concrete loop state. -/
theorem c10_failed_selector_rejection_witness :
    isSelectorTool ToolName.click = true ∧
      (ToolUse.mk .click [("selector", PVal.str "#x".toList)]).selector
        = some "#x".toList ∧
      "#x".toList ∈ ["#x".toList] ∧
      ((execOneTool ⟨fun _ => .ok ([], false), fun _ _ _ b => .ok b, fun _ => none⟩
            [] 0 0 ⟨⟨"u", 0⟩, [], ["#x".toList], "u", 0⟩
            ⟨.click, [("selector", PVal.str "#x".toList)]⟩).2.2.resultText
          = "Error: " ++ alreadyTriedMessage) ∧
      (execOneTool ⟨fun _ => .ok ([], false), fun _ _ _ b => .ok b, fun _ => none⟩
          [] 0 0 ⟨⟨"u", 0⟩, [], ["#x".toList], "u", 0⟩
          ⟨.click, [("selector", PVal.str "#x".toList)]⟩).1.browser = ⟨"u", 0⟩ :=
  ⟨rfl, by decide, by decide,
    (c10_failed_selector_rejection
      ⟨fun _ => .ok ([], false), fun _ _ _ b => .ok b, fun _ => none⟩ [] 0 0
      ⟨⟨"u", 0⟩, [], ["#x".toList], "u", 0⟩
      ⟨.click, [("selector", PVal.str "#x".toList)]⟩ "#x".toList
      rfl (by decide) (by decide)).1,
    (c10_failed_selector_rejection
      ⟨fun _ => .ok ([], false), fun _ _ _ b => .ok b, fun _ => none⟩ [] 0 0
      ⟨⟨"u", 0⟩, [], ["#x".toList], "u", 0⟩
      ⟨.click, [("selector", PVal.str "#x".toList)]⟩ "#x".toList
      rfl (by decide) (by decide)).2.1⟩

namespace HybridQuestRunner

theorem refreshFailedSelectors_waitCount (st : AIState) :
    (refreshFailedSelectors st).waitCount = st.waitCount := by
  unfold refreshFailedSelectors
  split <;> rfl

end HybridQuestRunner

/-- **C6, amended.**  The stuck check runs once per agent turn, after the
whole batch of requested tool calls has been processed: whenever, at the end
of a batch, the count of trailing consecutive wait-type calls (carried
across turns in `consecutiveWaitCount`) has reached `MAX_CONSECUTIVE_WAITS`
(3), the loop throws the stuck error — ending the run as failed regardless
of remaining step budget, with the error event as the last thing emitted;
any non-wait tool call resets the counter, so three consecutive waits
followed by a non-wait call within the same batch do not terminate the
run. -/
theorem c6_amended_stuck_detection (env : RunAIEnv) (ctx : RunCtx)
    (fuel i : Nat) (st : AIState) (tus : List ToolUse) (hasUsage : Bool)
    (hreply : env.agent i = .ok (tus, hasUsage))
    (hne : tus ≠ [])
    (hcount : MAX_CONSECUTIVE_WAITS ≤ trailingWaits st.waitCount tus) :
    (runAILoop env ctx (fuel + 1) i st).2 = .error stuckMessage ∧
      ∃ pre, (runAILoop env ctx (fuel + 1) i st).1
        = pre ++ [Event.log stuckMessage, Event.error stuckMessage] := by
  have hempty : tus.isEmpty = false := by
    cases tus with
    | nil => exact absurd rfl hne
    | cons a l => rfl
  have hwc : (processTools env ctx i 0 tus (refreshFailedSelectors st)).1.waitCount
      = trailingWaits st.waitCount tus := by
    rw [processTools_waitCount, refreshFailedSelectors_waitCount]
  have hcond : MAX_CONSECUTIVE_WAITS ≤
      (processTools env ctx i 0 tus (refreshFailedSelectors st)).1.waitCount := by
    rw [hwc]; exact hcount
  have hloop : runAILoop env ctx (fuel + 1) i st
      = ((Event.log "AI Step: Thinking..." ::
          (if hasUsage then [Event.log "AI Token Usage", Event.tokenUsage] else [])) ++
          (processTools env ctx i 0 tus (refreshFailedSelectors st)).2.1 ++
          [Event.log stuckMessage, Event.error stuckMessage],
          .error stuckMessage) := by
    conv_lhs => rw [runAILoop]
    simp only [hreply, hempty, Bool.false_eq_true, if_false, hcond, if_pos]
  refine ⟨by rw [hloop], ?_⟩
  refine ⟨(Event.log "AI Step: Thinking..." ::
    (if hasUsage then [Event.log "AI Token Usage", Event.tokenUsage] else [])) ++
    (processTools env ctx i 0 tus (refreshFailedSelectors st)).2.1, ?_⟩
  rw [hloop, List.append_assoc]

/-- Witness for `c6_amended_stuck_detection`: a turn consisting of three
wait calls fails the loop. -/
theorem c6_amended_stuck_detection_witness :
    (RunAIEnv.mk (fun _ => .ok ([⟨.wait, []⟩, ⟨.wait, []⟩, ⟨.wait, []⟩], false))
        (fun _ _ _ b => .ok b) (fun _ => some "s")).agent 0
      = .ok ([⟨.wait, []⟩, ⟨.wait, []⟩, ⟨.wait, []⟩], false) ∧
      ([(⟨.wait, []⟩ : ToolUse), ⟨.wait, []⟩, ⟨.wait, []⟩] ≠ []) ∧
      MAX_CONSECUTIVE_WAITS ≤
        trailingWaits 0 [⟨.wait, []⟩, ⟨.wait, []⟩, ⟨.wait, []⟩] ∧
      (runAILoop (RunAIEnv.mk
          (fun _ => .ok ([⟨.wait, []⟩, ⟨.wait, []⟩, ⟨.wait, []⟩], false))
          (fun _ _ _ b => .ok b) (fun _ => some "s")) [] 30 0
        ⟨⟨"u", 0⟩, [], [], "u", 0⟩).2 = .error stuckMessage :=
  ⟨rfl, by decide, by decide,
    (c6_amended_stuck_detection
      (RunAIEnv.mk (fun _ => .ok ([⟨.wait, []⟩, ⟨.wait, []⟩, ⟨.wait, []⟩], false))
        (fun _ _ _ b => .ok b) (fun _ => some "s")) [] 29 0
      ⟨⟨"u", 0⟩, [], [], "u", 0⟩
      [⟨.wait, []⟩, ⟨.wait, []⟩, ⟨.wait, []⟩] false rfl (by decide) (by decide)).1⟩

/-- A per-turn agent script for the C6 counterexample: the first turn issues
three waits and then a click, the next turn finishes. -/
def c6CeAIEnv : RunAIEnv :=
  ⟨fun t => if t = 0 then
      .ok ([⟨.wait, []⟩, ⟨.wait, []⟩, ⟨.wait, []⟩,
        ⟨.click, [("selector", PVal.str "#go".toList)]⟩], false)
    else .ok ([], false),
    fun _ _ _ b => .ok b, fun _ => some "s"⟩

/-- A reviewer environment whose verdict is a successful JSON reply. -/
def okReview : ReviewEnv :=
  ⟨some "s", .ok (some "{success: true}", false), .ok ⟨true, none, none⟩⟩

/-- Run environment for the C6 counterexample: no cached script, the agent
behaves as `c6CeAIEnv`, and the reviewer approves. -/
def c6CeEnv : RunEnv :=
  ⟨.ok ⟨"https://start", 0⟩, none, fun _ => none, fun _ => none, [],
    c6CeAIEnv, c6CeAIEnv, fun _ => okReview⟩

/-- **C6, counterexample.**  The agent issues a wait-type call 3 times
consecutively (the first three calls of its first turn), yet the run is not
terminated as failed: the stuck check happens only after the whole batch,
and the batch's trailing click has already reset the counter, so the run
completes with status success. -/
theorem c6_counterexample :
    c6CeEnv.aiEnv1.agent 0
      = .ok ([⟨.wait, []⟩, ⟨.wait, []⟩, ⟨.wait, []⟩,
          ⟨.click, [("selector", PVal.str "#go".toList)]⟩], false) ∧
      (run c6CeEnv 30).2.status = .success := by
  constructor
  · rfl
  · decide

namespace HybridQuestRunner

/-- `xs` ends with the given suffix of events. -/
def EndsWith (xs tail : List Event) : Prop := ∃ pre, xs = pre ++ tail

theorem EndsWith.append (A : List Event) {xs tail : List Event}
    (h : EndsWith xs tail) : EndsWith (A ++ xs) tail := by
  obtain ⟨pre, hp⟩ := h
  exact ⟨A ++ pre, by rw [hp, List.append_assoc]⟩

/-- The amended terminal-event property: a successful run's event stream ends
with a `result` event followed by `done`; a failed run's stream ends with an
`error` event (and nothing after it). -/
def TerminatesProperly (p : List Event × RunOutcome) : Prop :=
  (p.2.status = .success ∧ ∃ t, EndsWith p.1 [Event.result t, Event.done]) ∨
  (p.2.status = .failed ∧ ∃ m, EndsWith p.1 [Event.error m])

theorem TerminatesProperly.extend (A : List Event)
    {xs : List Event} {out : RunOutcome} (h : TerminatesProperly (xs, out)) :
    TerminatesProperly (A ++ xs, out) := by
  cases h with
  | inl h => exact Or.inl ⟨h.1, h.2.choose, EndsWith.append A h.2.choose_spec⟩
  | inr h => exact Or.inr ⟨h.1, h.2.choose, EndsWith.append A h.2.choose_spec⟩

theorem catchEvents_endsWith (msg : String) :
    EndsWith (catchEvents msg) [Event.error msg] :=
  ⟨[Event.log "Quest log saved", Event.log "Runner Error"], rfl⟩

theorem finishPhase_terminates (st : AIState) (r : ReviewResult) :
    TerminatesProperly (finishPhase st r) := by
  unfold TerminatesProperly finishPhase
  by_cases hr : r.success = true
  · rw [if_pos hr]
    by_cases he : st.recorded.isEmpty = true
    · rw [if_pos he]
      exact Or.inl ⟨rfl, "Quest completed successfully.",
        ⟨[Event.log "Quest log saved"], rfl⟩⟩
    · rw [if_neg he]
      exact Or.inl ⟨rfl, "Quest completed successfully.",
        ⟨[Event.log "Saving updated script for future runs...",
          Event.log "Quest log saved"], rfl⟩⟩
  · rw [if_neg hr]
    exact Or.inr ⟨rfl, _,
      ⟨[Event.log "AI Review Failed",
        Event.log "Step failed: AI Review determined mission incomplete",
        Event.log "Quest log saved"], rfl⟩⟩

theorem catch_terminates (A : List Event) (msg : String)
    (recorded : List Step) :
    TerminatesProperly (A ++ catchEvents msg,
      ⟨.failed, none, recorded, false⟩) :=
  Or.inr ⟨rfl, msg, EndsWith.append A (catchEvents_endsWith msg)⟩

theorem aiPhase_terminates (env : RunEnv) (maxSteps : Nat) (b : BrowserState)
    (recorded : List Step) :
    TerminatesProperly (aiPhase env maxSteps b recorded) := by
  unfold aiPhase
  rcases h1 : runAI env.aiEnv1 env.ctx maxSteps b recorded with ⟨evs1, res1⟩
  cases res1 with
  | error msg => exact catch_terminates evs1 msg recorded
  | ok st1 =>
    rcases h2 : performAIReview (env.review 1) with ⟨r1, evR1⟩
    simp only [h2]
    by_cases hr1 : r1.success = true
    · rw [if_pos hr1]
      rcases hf : finishPhase st1 r1 with ⟨evF, out⟩
      simp only [hf]
      have hterm := finishPhase_terminates st1 r1
      rw [hf] at hterm
      rw [show evs1 ++ Event.log "Requesting final AI review of mission status..." ::
          evR1 ++ evF = (evs1 ++ Event.log "Requesting final AI review of mission status..." ::
          evR1) ++ evF by rw [List.append_assoc]]
      exact hterm.extend _
    · rw [if_neg hr1]
      rcases h3 : runAI env.aiEnv2 env.ctx
          (if maxSteps - 5 ≤ st1.recorded.length then maxSteps + 10 else maxSteps)
          st1.browser st1.recorded with ⟨evs2, res2⟩
      cases res2 with
      | error msg =>
        exact Or.inr ⟨rfl, msg, EndsWith.append _ (catchEvents_endsWith msg)⟩
      | ok st2 =>
        cases finishPhase_terminates st2 ((performAIReview (env.review 2)).1) with
        | inl h =>
          exact Or.inl ⟨h.1, h.2.choose, EndsWith.append _ h.2.choose_spec⟩
        | inr h =>
          exact Or.inr ⟨h.1, h.2.choose, EndsWith.append _ h.2.choose_spec⟩

end HybridQuestRunner

namespace HybridQuestRunner

theorem EndsWith.cons (a : Event) {xs tail : List Event}
    (h : EndsWith xs tail) : EndsWith (a :: xs) tail := by
  obtain ⟨pre, hp⟩ := h
  exact ⟨a :: pre, by rw [hp, List.cons_append]⟩

end HybridQuestRunner

/-- **C7, amended.**  Every run's event stream terminates properly, but not
in the way the claim states: a run that ends in success emits a `result`
event followed by `done` as its last two events, while a run that ends in
failure emits an `error` event as its very last event, with no `done` after
it. -/
theorem c7_amended_terminal_events (env : RunEnv) (maxSteps : Nat) :
    TerminatesProperly (run env maxSteps) := by
  unfold run
  cases hl : env.launch with
  | error msg =>
    exact Or.inr ⟨rfl, msg, EndsWith.append _ (catchEvents_endsWith msg)⟩
  | ok b0 =>
    cases hs : env.script with
    | none =>
      cases aiPhase_terminates env maxSteps b0 [] with
      | inl h =>
        exact Or.inl ⟨h.1, h.2.choose,
          EndsWith.append _ (EndsWith.cons _ (EndsWith.cons _ h.2.choose_spec))⟩
      | inr h =>
        exact Or.inr ⟨h.1, h.2.choose,
          EndsWith.append _ (EndsWith.cons _ (EndsWith.cons _ h.2.choose_spec))⟩
    | some sc =>
      dsimp only
      rcases hrep : replaySteps env sc.steps 0 b0 with ⟨evR, b1, executed, fidx⟩
      dsimp only
      cases fidx with
      | some i =>
        cases aiPhase_terminates env maxSteps b1 executed with
        | inl h =>
          exact Or.inl ⟨h.1, h.2.choose,
            EndsWith.append _ (EndsWith.cons _ h.2.choose_spec)⟩
        | inr h =>
          exact Or.inr ⟨h.1, h.2.choose,
            EndsWith.append _ (EndsWith.cons _ h.2.choose_spec)⟩
      | none =>
        by_cases hc : criteriaFailed sc = true
        · rw [if_pos hc]
          cases aiPhase_terminates env maxSteps b1 executed with
          | inl h =>
            exact Or.inl ⟨h.1, h.2.choose,
              EndsWith.append _ (EndsWith.cons _ (EndsWith.cons _ h.2.choose_spec))⟩
          | inr h =>
            exact Or.inr ⟨h.1, h.2.choose,
              EndsWith.append _ (EndsWith.cons _ (EndsWith.cons _ h.2.choose_spec))⟩
        · rw [if_neg hc]
          by_cases hr0 : (performAIReview (env.review 0)).1.success = true
          · rw [if_pos hr0]
            exact Or.inl ⟨rfl, "Quest completed efficiently using saved script.",
              EndsWith.append _
                ⟨[Event.log "Quest completed successfully using cached script!",
                  Event.log "Quest log saved"], rfl⟩⟩
          · rw [if_neg hr0]
            cases aiPhase_terminates env maxSteps b1 executed with
            | inl h =>
              exact Or.inl ⟨h.1, h.2.choose,
                EndsWith.append _ (EndsWith.cons _ (EndsWith.cons _ h.2.choose_spec))⟩
            | inr h =>
              exact Or.inr ⟨h.1, h.2.choose,
                EndsWith.append _ (EndsWith.cons _ (EndsWith.cons _ h.2.choose_spec))⟩

/-- A reviewer environment whose verdict is a failing JSON reply. -/
def failReview : ReviewEnv :=
  ⟨some "s", .ok (some "{success: false}", false),
    .ok ⟨false, some "Signup page still shown", none⟩⟩

/-- An agent that immediately reports completion (no tool calls). -/
def idleAIEnv : RunAIEnv :=
  ⟨fun _ => .ok ([], false), fun _ _ _ b => .ok b, fun _ => some "s"⟩

/-- Run environment for the C7 counterexample: no cached script, the agent
immediately stops, and both reviews reject the result. -/
def c7CeEnv : RunEnv :=
  ⟨.ok ⟨"https://start", 0⟩, none, fun _ => none, fun _ => none, [],
    idleAIEnv, idleAIEnv, fun _ => failReview⟩

/-- **C7, counterexample.**  A run that fails (here: both AI reviews reject
the outcome) ends its event stream with the `error` event — no `done` event
follows, contradicting the claim that failure paths also emit `done` as the
final event. -/
theorem c7_counterexample :
    (run c7CeEnv 30).2.status = .failed ∧
      (run c7CeEnv 30).1.getLast?
        = some (Event.error
            "Mission flagged by AI Review: Signup page still shown") ∧
      (run c7CeEnv 30).1.getLast? ≠ some Event.done := by
  refine ⟨by decide, by decide, by decide⟩

namespace HybridQuestRunner

/-- The amended persistence policy: a run that ends in success away from the
cached-script fast path persists its recorded history as the new script —
with the final wait step appended unless the last recorded step is already a
wait — and persists nothing when the history is empty. -/
def SavedScriptPolicy (out : RunOutcome) : Prop :=
  out.status = .success → out.viaScript = false →
    out.savedScript = (if out.recorded.isEmpty then none
      else if lastIsWait out.recorded then some out.recorded
      else some (out.recorded ++ [finalWaitStep]))

theorem finishPhase_savedScript (st : AIState) (r : ReviewResult) :
    SavedScriptPolicy (finishPhase st r).2 := by
  unfold SavedScriptPolicy finishPhase
  by_cases hr : r.success = true
  · rw [if_pos hr]
    by_cases he : st.recorded.isEmpty = true
    · rw [if_pos he]
      intro _ _
      simp [he]
    · rw [if_neg he]
      intro _ _
      have he' : st.recorded.isEmpty = false := by simpa using he
      by_cases hw : lastIsWait st.recorded = true <;> simp [he', hw]
  · rw [if_neg hr]
    intro hcontra
    exact RunStatus.noConfusion hcontra

theorem aiPhase_savedScript (env : RunEnv) (maxSteps : Nat)
    (b : BrowserState) (recorded : List Step) :
    SavedScriptPolicy (aiPhase env maxSteps b recorded).2 := by
  unfold aiPhase
  rcases h1 : runAI env.aiEnv1 env.ctx maxSteps b recorded with ⟨evs1, res1⟩
  cases res1 with
  | error msg =>
    intro hcontra
    exact RunStatus.noConfusion hcontra
  | ok st1 =>
    dsimp only
    by_cases hr1 : (performAIReview (env.review 1)).1.success = true
    · rw [if_pos hr1]
      exact finishPhase_savedScript st1 _
    · rw [if_neg hr1]
      rcases h3 : runAI env.aiEnv2 env.ctx
          (if maxSteps - 5 ≤ st1.recorded.length then maxSteps + 10 else maxSteps)
          st1.browser st1.recorded with ⟨evs2, res2⟩
      cases res2 with
      | error msg =>
        intro hcontra
        exact RunStatus.noConfusion hcontra
      | ok st2 =>
        exact finishPhase_savedScript st2 _

theorem run_savedScript (env : RunEnv) (maxSteps : Nat) :
    SavedScriptPolicy (run env maxSteps).2 := by
  unfold run
  cases hl : env.launch with
  | error msg =>
    intro hcontra
    exact RunStatus.noConfusion hcontra
  | ok b0 =>
    cases hs : env.script with
    | none => exact aiPhase_savedScript env maxSteps b0 []
    | some sc =>
      dsimp only
      rcases hrep : replaySteps env sc.steps 0 b0 with ⟨evR, b1, executed, fidx⟩
      dsimp only
      cases fidx with
      | some i => exact aiPhase_savedScript env maxSteps b1 executed
      | none =>
        by_cases hc : criteriaFailed sc = true
        · rw [if_pos hc]
          exact aiPhase_savedScript env maxSteps b1 executed
        · rw [if_neg hc]
          by_cases hr0 : (performAIReview (env.review 0)).1.success = true
          · rw [if_pos hr0]
            intro _ hv
            exact Bool.noConfusion hv
          · rw [if_neg hr0]
            exact aiPhase_savedScript env maxSteps b1 executed

end HybridQuestRunner

/-- A one-step cached script whose replay succeeds. -/
def c8CeEnv : RunEnv :=
  ⟨.ok ⟨"https://start", 0⟩,
    some ⟨[⟨.navigate, [("url", PVal.str "https://x".toList)]⟩], none⟩,
    fun _ => some ⟨"https://x", 1⟩, fun _ => some "s", [],
    idleAIEnv, idleAIEnv, fun _ => okReview⟩

/-- **C8, counterexample.**  A run that ends in success purely via cached-
script replay (replay succeeds and the AI review approves) does *not*
persist its recorded step history: the fast path returns before
`ScriptManager.saveScript` is reached, even though the history is
non-empty. -/
theorem c8_counterexample :
    (run c8CeEnv 30).2.status = .success ∧
      (run c8CeEnv 30).2.recorded ≠ [] ∧
      (run c8CeEnv 30).2.savedScript = none := by
  refine ⟨by decide, by decide, by decide⟩

/-- **C8, amended.**  After a run that ends in success *through the AI
phase* (not via the cached-script fast path): if at least one step was
recorded, the full recorded step history (script steps plus agent steps in
execution order) is persisted as the new script, with the explicit final
wait step appended unless the last recorded step is already a `wait` or
`random_wait`; a successful run with an empty recorded history persists
nothing, and a run succeeding purely via script replay leaves the stored
script untouched. -/
theorem c8_amended_script_persistence (env : RunEnv) (maxSteps : Nat)
    (hs : (run env maxSteps).2.status = .success)
    (hv : (run env maxSteps).2.viaScript = false) :
    (run env maxSteps).2.savedScript
      = (if (run env maxSteps).2.recorded.isEmpty then none
        else if lastIsWait (run env maxSteps).2.recorded
          then some (run env maxSteps).2.recorded
        else some ((run env maxSteps).2.recorded ++ [finalWaitStep])) :=
  run_savedScript env maxSteps hs hv

/-- Run environment for the C8 witness: no cached script; the agent performs
one click and stops; the review approves. -/
def c8WitnessEnv : RunEnv :=
  ⟨.ok ⟨"https://start", 0⟩, none, fun _ => none, fun _ => none, [],
    ⟨fun t => if t = 0 then
        .ok ([⟨.click, [("selector", PVal.str "#a".toList)]⟩], false)
      else .ok ([], false),
      fun _ _ _ b => .ok b, fun _ => some "s"⟩,
    idleAIEnv, fun _ => okReview⟩

/-- Witness for `c8_amended_script_persistence` on a concrete successful
AI-path run with a non-empty history. -/
theorem c8_amended_script_persistence_witness :
    (run c8WitnessEnv 30).2.status = .success ∧
      (run c8WitnessEnv 30).2.viaScript = false ∧
      (run c8WitnessEnv 30).2.savedScript
        = (if (run c8WitnessEnv 30).2.recorded.isEmpty then none
          else if lastIsWait (run c8WitnessEnv 30).2.recorded
            then some (run c8WitnessEnv 30).2.recorded
          else some ((run c8WitnessEnv 30).2.recorded ++ [finalWaitStep])) :=
  ⟨by decide, by decide,
    c8_amended_script_persistence c8WitnessEnv 30 (by decide) (by decide)⟩
